import Mathlib

set_option maxHeartbeats 1000000
set_option maxRecDepth 10000

/-!
Shallow embedding of the dumpfloppy floppy-reader core (disk.c and
dumpfloppy.c).  Pure data manipulation is translated function-for-function;
the floppy controller (ioctl FDRAWCMD transport) is modelled by an oracle
supplying the reply of each READID call and the success/contents of each
data read.  C `die` calls are modelled by the `Outcome.fatal` result,
out-of-bounds array accesses (undefined behaviour in C) by `Outcome.ub`
or, for helper functions, by an `Option` result of `none`.

MAX_SECS, MAX_CYLS and the sector/track/disk field lists come from disk.h,
which is part of this repository; disk.h itself is not under src/, so the
capacity bound MAX_SECS is kept as a parameter `maxSecs` (the spec only
says it is a fixed hard ceiling), and the field sets are reconstructed
from every use in disk.c, show.c and dumpfloppy.c.
-/

namespace Dumpfloppy

/-- Sector status constants from disk.h (SECTOR_MISSING, SECTOR_BAD,
SECTOR_GOOD), as used by disk.c and show.c. -/
inductive SectorStatus
  | missing
  | bad
  | good
deriving Repr, DecidableEq

/-- Track status constants from disk.h (TRACK_UNKNOWN, TRACK_GUESSED,
TRACK_PROBED). -/
inductive TrackStatus
  | unknown
  | guessed
  | probedT
deriving Repr, DecidableEq

/-- The sector_t structure.  `data` is the owned payload buffer; `none`
models a NULL pointer.  The 8-bit identifier fields are Nat. -/
structure Sector where
  status : SectorStatus
  log_cyl : Nat
  log_head : Nat
  log_sector : Nat
  phys_sector : Nat
  deleted : Bool
  data : Option (List Nat)
deriving Repr, DecidableEq

/-- EMPTY_SECTOR from disk.c: status SECTOR_MISSING, 0xFF sentinels,
no data buffer. -/
def EMPTY_SECTOR : Sector :=
  { status := .missing, log_cyl := 0xFF, log_head := 0xFF,
    log_sector := 0xFF, phys_sector := 0xFF, deleted := false, data := none }

/-- init_sector from disk.c: overwrite with EMPTY_SECTOR. -/
def init_sector (_s : Sector) : Sector := EMPTY_SECTOR

/-- free_sector from disk.c: status becomes SECTOR_MISSING and the data
buffer is freed (data = NULL).  The logical-identifier fields are NOT
reset. -/
def free_sector (s : Sector) : Sector :=
  { s with status := .missing, data := none }

/-- The data_mode_t records of the DATA_MODES catalog in disk.c. -/
structure DataMode where
  imd_mode : Int
  name : String
  rate : Nat
  is_fm : Bool
deriving Repr, DecidableEq

/-- DATA_MODES from disk.c, in catalog order; the {-1, NULL} sentinel
terminator is modelled by the end of the list. -/
def DATA_MODES : List DataMode :=
  [ ⟨5, "MFM-250k", 2, false⟩,
    ⟨2, "FM-250k", 2, true⟩,
    ⟨4, "MFM-300k", 1, false⟩,
    ⟨1, "FM-300k", 1, true⟩,
    ⟨3, "MFM-500k", 0, false⟩,
    ⟨0, "FM-500k", 0, true⟩,
    ⟨6, "MFM-1000k", 3, false⟩ ]

/-- sector_bytes from disk.c: 128 << code. -/
def sector_bytes (code : Nat) : Nat := 128 <<< code

/-- The track_t structure.  `data_mode` is a pointer into DATA_MODES,
modelled as an index (`none` = NULL); `sectors` is the sectors[MAX_SECS]
array, of length maxSecs; `num_sectors` and `sector_size_code` are C ints
(-1 sentinels), so they are Int. -/
structure Track where
  status : TrackStatus
  probed : Bool
  data_mode : Option Nat
  phys_cyl : Int
  phys_head : Int
  num_sectors : Int
  sector_size_code : Int
  sectors : List Sector
deriving Repr, DecidableEq

/-- init_track from disk.c: EMPTY_TRACK (status TRACK_UNKNOWN, NULL mode,
-1 counts; the `probed` member is not in the designated initializer of
EMPTY_TRACK, so it is implicitly zero = false) with the physical position
filled in and every sector initialized empty. -/
def init_track (maxSecs : Nat) (phys_cyl phys_head : Int) : Track :=
  { status := .unknown, probed := false, data_mode := none,
    phys_cyl := phys_cyl, phys_head := phys_head,
    num_sectors := -1, sector_size_code := -1,
    sectors := List.replicate maxSecs EMPTY_SECTOR }

/-- free_track from disk.c: status back to TRACK_UNKNOWN, sector count
zeroed, every sector freed.  data_mode, sector_size_code, the physical
position and the probed flag are NOT reset. -/
def free_track (t : Track) : Track :=
  { t with status := .unknown, num_sectors := 0,
           sectors := t.sectors.map free_sector }

/-- The state accumulated by track_scan_sectors's single pass: the
lowest/highest pointers (modelled as indices into the live sector prefix,
none = NULL) and the running lowest_id / highest_id values. -/
structure ScanSt where
  lowest : Option Nat
  lowest_id : Nat
  highest : Option Nat
  highest_id : Nat
deriving Repr, DecidableEq

/-- One iteration of the track_scan_sectors loop body for sector index i
with logical sector id x: strict-< update of the lowest, then strict->
update of the highest. -/
def scan_step (i : Nat) (x : Nat) (st : ScanSt) : ScanSt :=
  let st1 := if x < st.lowest_id then { st with lowest := some i, lowest_id := x } else st
  if x > st1.highest_id then { st1 with highest := some i, highest_id := x } else st1

/-- The track_scan_sectors loop over the live sectors, indices counted
from i. -/
def scan_run : List Nat → Nat → ScanSt → ScanSt
  | [], _, st => st
  | x :: xs, i, st => scan_run xs (i + 1) (scan_step i x st)

/-- track_scan_sectors from disk.c.  The C function records each id in a
stack array `bool seen[MAX_SECS]`; an id ≥ MAX_SECS makes that write go
out of bounds (undefined behaviour), modelled here by result `none`.
Otherwise it returns the scan state (lowest/highest pointers and ids) and
the contiguity flag computed from seen[lowest_id .. highest_id). -/
def track_scan_sectors (maxSecs : Nat) (t : Track) : Option (ScanSt × Bool) :=
  let n := t.num_sectors.toNat
  let ids := (t.sectors.take n).map (fun s => s.log_sector)
  if ids.any (fun id => maxSecs ≤ id) then none
  else
    let st := scan_run ids 0 ⟨none, maxSecs, none, 0⟩
    let contiguous :=
      (List.range' st.lowest_id (st.highest_id - st.lowest_id)).all
        (fun i => ids.contains i)
    some (st, contiguous)

/-- The disk_t structure.  The comment fields are omitted (no claim
touches them); `tracks` is the tracks[MAX_CYLS][MAX_HEADS] grid, modelled
as a total function on (cyl, head).  In EMPTY_DISK's designated
initializer cyl_step is not mentioned, so it is implicitly
zero-initialized. -/
structure Disk where
  num_phys_cyls : Int
  num_phys_heads : Int
  cyl_step : Int
  tracks : Nat → Nat → Track

/-- init_disk from disk.c: copy EMPTY_DISK (cyl_step implicitly 0) and
initialize every track of the grid at its physical position. -/
def init_disk (maxSecs : Nat) : Disk :=
  { num_phys_cyls := 0, num_phys_heads := 0, cyl_step := 0,
    tracks := fun c h => init_track maxSecs (c : Int) (h : Int) }

/-- Pointwise update of the track grid, modelling a write through
&disk->tracks[c][h]. -/
def upd_tracks (tr : Nat → Nat → Track) (c h : Nat) (t : Track) : Nat → Nat → Track :=
  fun c' h' => if c' = c ∧ h' = h then t else tr c' h'

/-- Reply of a successful FD_READID: cmd->reply[3..6] = logical cylinder,
logical head, logical sector, size code (each an 8-bit reply byte). -/
structure IdReply where
  r_cyl : Nat
  r_head : Nat
  r_sec : Nat
  r_size : Nat
deriving Repr, DecidableEq

/-- Result of one core operation: ok / failed mirror the C bool result;
fatal models a `die` call; ub models an out-of-bounds array access
(undefined behaviour in C). -/
inductive Outcome
  | ok
  | failed
  | fatal
  | ub
deriving Repr, DecidableEq

/-- track_readid from dumpfloppy.c, with the reply of this FD_READID call
supplied by the oracle (`none` = the controller reported failure).  Dies
when the track already holds MAX_SECS sectors or when a size code differs
from the one already recorded (mixed sector formats); otherwise appends
the read id to the track's sectors. -/
def track_readid (maxSecs : Nat) (reply : Option IdReply) (t : Track) : Outcome × Track :=
  if (maxSecs : Int) ≤ t.num_sectors then (.fatal, t)
  else
    match reply with
    | none => (.failed, t)
    | some r =>
      if t.sector_size_code ≠ -1 ∧ t.sector_size_code ≠ (r.r_size : Int) then (.fatal, t)
      else
        let i := t.num_sectors.toNat
        let s := { t.sectors.getD i EMPTY_SECTOR with
                   log_cyl := r.r_cyl, log_head := r.r_head, log_sector := r.r_sec }
        (.ok, { t with sectors := t.sectors.set i s,
                       num_sectors := t.num_sectors + 1,
                       sector_size_code := (r.r_size : Int) })

/-- The data-mode identification loop of probe_track: try each catalog
entry in order starting at index i (the i-th entry's attempt consumes the
i-th READID reply); the first successful READID fixes the mode.  Returns
the outcome, the track, and the number of READID calls consumed. -/
def probe_modes_iter (maxSecs : Nat) (readid : Nat → Option IdReply) :
    Nat → Nat → Track → Outcome × Track × Nat
  | 0, i, t => (.failed, t, i)
  | rem + 1, i, t =>
    let t1 := { t with data_mode := some i }
    match track_readid maxSecs (readid i) t1 with
    | (.ok, t2) => (.ok, t2, i + 1)
    | (.fatal, t2) => (.fatal, t2, i + 1)
    | (_, t2) => probe_modes_iter maxSecs readid rem (i + 1) t2

/-- Entry of the mode loop at catalog index i; the loop's remaining
iteration count is the number of catalog entries left before the
sentinel. -/
def probe_modes (maxSecs : Nat) (readid : Nat → Option IdReply) (t : Track) (i : Nat) :
    Outcome × Track × Nat :=
  probe_modes_iter maxSecs readid (DATA_MODES.length - i) i t

/-- The 30-iteration sampling loop of probe_track: n more successful
READIDs are required, consuming replies k, k+1, ...; any failure aborts
the probe. -/
def sample_loop (maxSecs : Nat) (readid : Nat → Option IdReply) :
    Nat → Nat → Track → Outcome × Track
  | _, 0, t => (.ok, t)
  | k, n + 1, t =>
    match track_readid maxSecs (readid k) t with
    | (.ok, t2) => sample_loop maxSecs readid (k + 1) n t2
    | (r, t2) => (r, t2)

/-- The lowest-sector search of probe_track (its `end_sec`/`end_pos`
accumulator loop): running minimum with ties taken by the LATER index
(the comparison is `sec <= end_sec`), starting from end_sec = MAX_SECS
and end_pos = -1. -/
def find_last_min_aux (i : Nat) (end_sec : Nat) (end_pos : Int) : List Nat → Nat × Int
  | [] => (end_sec, end_pos)
  | x :: xs =>
    if x ≤ end_sec then find_last_min_aux (i + 1) x (i : Int) xs
    else find_last_min_aux (i + 1) end_sec end_pos xs

/-- Entry point of the lowest-sector search over the sampled ids. -/
def find_last_min (maxSecs : Nat) (ids : List Nat) : Nat × Int :=
  find_last_min_aux 0 maxSecs (-1) ids

/-- The backward scan of probe_track looking for the previous occurrence
of end_sec, starting at position sp = end_pos - 1.  The C loop reads
track->sectors[sp].log_sector BEFORE checking sp against 0, so a start
position below 0 is an out-of-bounds read: result `none` (undefined
behaviour).  `some none` is the clean "lowest sector only seen once"
failure; `some (some j)` is the found previous occurrence. -/
def scan_back_nat (ids : List Nat) (end_sec : Nat) : Nat → Option (Option Nat)
  | 0 =>
    (match ids.get? 0 with
     | none => none
     | some v => if v = end_sec then some (some 0) else some none)
  | sp + 1 =>
    (match ids.get? (sp + 1) with
     | none => none
     | some v => if v = end_sec then some (some (sp + 1)) else scan_back_nat ids end_sec sp)

/-- Entry of the backward scan at the (possibly negative) start position
end_pos - 1; a negative start is the out-of-bounds first read. -/
def scan_back (ids : List Nat) (end_sec : Nat) (sp : Int) : Option (Option Nat) :=
  if sp < 0 then none else scan_back_nat ids end_sec sp.toNat

/-- The rotation-extraction step of probe_track on the sampled id list:
locate the last occurrence of the lowest id, scan backward to its
previous occurrence, and truncate to the half-open range between the two.
`none` = out-of-bounds read (UB), `some none` = clean probe failure,
`some (some r)` = the extracted rotation. -/
def extract_rotation (maxSecs : Nat) (ids : List Nat) : Option (Option (List Nat)) :=
  let fm := find_last_min maxSecs ids
  match scan_back ids fm.1 (fm.2 - 1) with
  | none => none
  | some none => some none
  | some (some start_pos) => some (some ((ids.drop start_pos).take (fm.2.toNat - start_pos)))

/-- The rotation-extraction tail of probe_track operating on the fully
sampled track: find the lowest sector's last occurrence, scan backward to
its previous occurrence, truncate the sector array to the range between
them (the memmove), run track_scan_sectors for the success message (whose
printf dereferences the lowest and highest pointers when the range is
contiguous), and mark the track probed. -/
def probe_extract (maxSecs : Nat) (t3 : Track) : Outcome × Track :=
  let n := t3.num_sectors.toNat
  let ids := (t3.sectors.take n).map (fun s => s.log_sector)
  let fm := find_last_min maxSecs ids
  match scan_back ids fm.1 (fm.2 - 1) with
  | none => (.ub, t3)
  | some none => (.failed, t3)
  | some (some start_pos) =>
    let ns := fm.2.toNat - start_pos
    let t4 := { t3 with num_sectors := (ns : Int),
                        sectors := (t3.sectors.drop start_pos).take ns ++ t3.sectors.drop ns }
    match track_scan_sectors maxSecs t4 with
    | none => (.ub, t4)
    | some (st, contiguous) =>
      if contiguous ∧ (st.lowest = none ∨ st.highest = none) then (.ub, t4)
      else (.ok, { t4 with probed := true })

/-- probe_track from dumpfloppy.c, with the controller's READID replies
supplied per call index: free the track, identify the data mode, sample
30 more ids, then extract one rotation. -/
def probe_track (maxSecs : Nat) (readid : Nat → Option IdReply) (t : Track) : Outcome × Track :=
  let tA := free_track t
  let tB := { tA with num_sectors := 0, sector_size_code := -1 }
  match probe_modes maxSecs readid tB 0 with
  | (.ok, t2, k) =>
    (match sample_loop maxSecs readid k 30 t2 with
     | (.ok, t3) => probe_extract maxSecs t3
     | (r, t3) => (r, t3))
  | (r, t2, _) => (r, t2)

/-- The controller transport as seen by read_track: the READID replies
(for the probe it may trigger), the outcome of the single whole-track
FD_READ attempt, the outcome of each single-sector FD_READ (keyed by the
logical sector id addressed), and the medium contents per logical sector
id. -/
structure DevOracle where
  readid : Nat → Option IdReply
  trackRead : Bool
  secRead : Nat → Bool
  medium : Nat → List Nat

/-- A transferred buffer of exactly `size` bytes for a sector whose
recorded content is l: the controller always transfers the requested
byte count. -/
def fixed_block (size : Nat) (l : List Nat) : List Nat :=
  l.take size ++ List.replicate (size - l.length) 0

/-- Modelled from the spec: the buffer returned by a successful
whole-track FD_READ addressed at the lowest logical sector — n sectors of
consecutive logical ids starting at lowest_id, ordered by logical id
(dumpfloppy.c: "The resulting data will be ordered by *logical* ID"). -/
def whole_track_buf (medium : Nat → List Nat) (size lowest_id n : Nat) : List Nat :=
  ((List.range n).map (fun j => fixed_block size (medium (lowest_id + j)))).flatten

/-- The body of read_track's per-sector loop for one sector: skip it if
its data buffer is already populated; otherwise fill it from the
whole-track buffer slice at offset sector_size * (log_sector - lowest),
or by an individual FD_READ whose failure frees the buffer again (data
back to NULL, all_ok false). -/
def acquire_one (size : Nat) (whole : Bool) (lowest_id : Nat) (buf : List Nat)
    (o : DevOracle) (s : Sector) : Sector × Bool :=
  if s.data.isSome then (s, true)
  else if whole then
    ({ s with data := some ((buf.drop (size * (s.log_sector - lowest_id))).take size) }, true)
  else if o.secRead s.log_sector then
    ({ s with data := some (fixed_block size (o.medium s.log_sector)) }, true)
  else ({ s with data := none }, false)

/-- The acquisition body of read_track on a probed track: scan the
sectors; if the id range is contiguous attempt one whole-track read
addressed at the lowest sector (dereferencing the lowest pointer, and on
success printing through the highest pointer); then acquire every
not-yet-populated sector in physical order.  Returns ok only if every
sector ended populated. -/
def read_track_body (maxSecs : Nat) (o : DevOracle) (t1 : Track) : Outcome × Track :=
  match track_scan_sectors maxSecs t1 with
  | none => (.ub, t1)
  | some (st, contiguous) =>
    if contiguous ∧ st.lowest = none then (.ub, t1)
    else
      let size := sector_bytes t1.sector_size_code.toNat
      let n := t1.num_sectors.toNat
      let lowest_id := (t1.sectors.getD (st.lowest.getD 0) EMPTY_SECTOR).log_sector
      let whole := contiguous ∧ o.trackRead
      if whole ∧ st.highest = none then (.ub, t1)
      else
        let buf := whole_track_buf o.medium size lowest_id n
        let pairs := (t1.sectors.take n).map (acquire_one size whole lowest_id buf o)
        let t2 := { t1 with sectors := pairs.map Prod.fst ++ t1.sectors.drop n }
        if pairs.all Prod.snd then (.ok, t2) else (.failed, t2)

/-- read_track from dumpfloppy.c: probe first when the track is not
marked probed (probe failure fails the attempt), then run the acquisition
body. -/
def read_track (maxSecs : Nat) (o : DevOracle) (t : Track) : Outcome × Track :=
  match (if t.probed then ((.ok, t) : Outcome × Track) else probe_track maxSecs o.readid t) with
  | (.ok, t1) => read_track_body maxSecs o t1
  | r => r

/-- One iteration of process_floppy's per-track retry loop after a failed
read_track attempt: the probed flag is cleared ("Failed; reprobe and try
again") and read_track is invoked again. -/
def retry_step (maxSecs : Nat) (o : DevOracle) (t : Track) : Outcome × Track :=
  read_track maxSecs o { t with probed := false }

/-- The cylinder advance of process_floppy's bulk acquisition loop:
`cyl += disk.cyl_step`. -/
def next_cyl (d : Disk) (cyl : Int) : Int := cyl + d.cyl_step

/-- The sidedness classification printed by probe_disk. -/
inductive SideClass
  | singleSided
  | separateSides
  | doubleSided
deriving Repr, DecidableEq

/-- Result of probe_disk: fatal models its die calls (and fatal probes),
ub an undefined-behaviour path, ok carries the sidedness classification. -/
inductive ProbeDiskOut
  | fatal
  | ub
  | ok (c : SideClass)
deriving Repr, DecidableEq

/-- The cylinder-step inference at the end of probe_disk, comparing head
0's first sector's logical cylinder with the physical cylinder. -/
inductive StepCheck
  | step2
  | fatalStep
  | warn
  | equal
deriving Repr, DecidableEq

/-- The if-chain of probe_disk lines 621-628: doublestepping when
log_cyl * 2 == phys_cyl; fatal when log_cyl == phys_cyl * 2; a warning on
any other mismatch. -/
def cyl_step_check (log_cyl : Nat) (phys_cyl : Int) : StepCheck :=
  if (log_cyl : Int) * 2 = phys_cyl then .step2
  else if (log_cyl : Int) = phys_cyl * 2 then .fatalStep
  else if (log_cyl : Int) ≠ phys_cyl then .warn
  else .equal

/-- The head loop of probe_disk: probe cylinder 2 on heads h, h+1, ...
(n heads remaining), ignoring each probe's boolean result but aborting
the process on a fatal (or UB) probe. -/
def probe_heads (maxSecs : Nat) (rd : Nat → Nat → Option IdReply) :
    Nat → Nat → Disk → Outcome × Disk
  | _, 0, d => (.ok, d)
  | h, n + 1, d =>
    let r := probe_track maxSecs (rd h) (d.tracks 2 h)
    let d1 := { d with tracks := upd_tracks d.tracks 2 h r.2 }
    match r.1 with
    | .fatal => (.fatal, d1)
    | .ub => (.ub, d1)
    | _ => probe_heads maxSecs rd (h + 1) n d1

/-- probe_disk from dumpfloppy.c: probe both sides of cylinder 2, then
classify sidedness (dying if neither side probed, dropping to one head if
only head 0 probed) and infer the cylinder step from head 0's first
sector. -/
def probe_disk (maxSecs : Nat) (rd : Nat → Nat → Option IdReply) (d : Disk) :
    ProbeDiskOut × Disk :=
  match probe_heads maxSecs rd 0 d.num_phys_heads.toNat d with
  | (.fatal, d1) => (.fatal, d1)
  | (.ub, d1) => (.ub, d1)
  | (_, d1) =>
    let side0 := d1.tracks 2 0
    let sec0 := side0.sectors.getD 0 EMPTY_SECTOR
    let side1 := d1.tracks 2 1
    let sec1 := side1.sectors.getD 0 EMPTY_SECTOR
    if ¬(side0.probed ∨ side1.probed) then (.fatal, d1)
    else
      let cd :=
        if side0.probed ∧ ¬side1.probed then
          (SideClass.singleSided, { d1 with num_phys_heads := 1 })
        else if sec0.log_head = 0 ∧ sec1.log_head = 0 then (SideClass.separateSides, d1)
        else (SideClass.doubleSided, d1)
      match cyl_step_check sec0.log_cyl side0.phys_cyl with
      | .step2 => (.ok cd.1, { cd.2 with cyl_step := 2 })
      | .fatalStep => (.fatal, cd.2)
      | _ => (.ok cd.1, cd.2)

/-- The disk set-up of process_floppy before probe_disk: init_disk, then
num_phys_cyls from the drive parameters or -t, and num_phys_heads = 2. -/
def process_start (maxSecs : Nat) (num_cyls : Int) : Disk :=
  { init_disk maxSecs with num_phys_cyls := num_cyls, num_phys_heads := 2 }

/-- One step of write_imd_track's flag loop for one sector: set
IMD_NEED_CYL_MAP (0x80) when the (uint8_t) logical cylinder differs from
the physical cylinder, and IMD_NEED_HEAD_MAP (0x40) when the logical head
differs from the physical head. -/
def imd_flag_step (phys_cyl phys_head : Int) (fl : Nat) (s : Sector) : Nat :=
  let fl1 := if ((s.log_cyl % 256 : Nat) : Int) ≠ phys_cyl then fl ||| 0x80 else fl
  if ((s.log_head % 256 : Nat) : Int) ≠ phys_head then fl1 ||| 0x40 else fl1

/-- The flags accumulated by write_imd_track's loop over the track's
sectors. -/
def imd_track_flags (t : Track) : Nat :=
  (t.sectors.take t.num_sectors.toNat).foldl (imd_flag_step t.phys_cyl t.phys_head) 0

/-- One sector's data record in the IMD track: marker 0x00 when the
sector has no data buffer, else marker 0x01 followed by the sector_size
payload bytes. -/
def imd_sector_record (size : Nat) (s : Sector) : List Nat :=
  match s.data with
  | none => [0x00]
  | some d => 0x01 :: fixed_block size d

/-- write_imd_track from dumpfloppy.c, producing the emitted byte list:
5-byte header (mode byte, physical cylinder, flags|physical head, sector
count, size code), the always-present sector-number map, the
logical-cylinder and logical-head maps only when the corresponding flag
bit is set, then the per-sector data records.  The C code dereferences
track->data_mode for the mode byte, so a track with no data mode is
undefined (`none`). -/
def write_imd_track (t : Track) : Option (List Nat) :=
  match t.data_mode.bind (fun m => DATA_MODES.get? m) with
  | none => none
  | some dm =>
    let n := t.num_sectors.toNat
    let secs := t.sectors.take n
    let flags := imd_track_flags t
    let sec_map := secs.map (fun s => s.log_sector % 256)
    let cyl_map := secs.map (fun s => s.log_cyl % 256)
    let head_map := secs.map (fun s => s.log_head % 256)
    let size := sector_bytes t.sector_size_code.toNat
    let header := [ (dm.imd_mode % 256).toNat,
                    (t.phys_cyl % 256).toNat,
                    (flags ||| (t.phys_head % 256).toNat) % 256,
                    (t.num_sectors % 256).toNat,
                    (t.sector_size_code % 256).toNat ]
    some (header ++ sec_map
      ++ (if flags &&& 0x80 ≠ 0 then cyl_map else [])
      ++ (if flags &&& 0x40 ≠ 0 then head_map else [])
      ++ (secs.map (imd_sector_record size)).flatten)

/-! Concrete example inputs used by the claim theorems, their witnesses and
counterexamples. -/

/-- A sector at logical position (2, 0, id) with payload d, as a track
probe on cylinder 2 head 0 records it. -/
def exSec (id : Nat) (d : Option (List Nat)) : Sector :=
  { status := .missing, log_cyl := 2, log_head := 0, log_sector := id,
    phys_sector := 0xFF, deleted := false, data := d }

/-- A probed two-sector track (logical ids 1 and 2, 128-byte sectors) at
physical position (2, 0), with sector payloads d1 and d2 (none = not yet
read). -/
def exTrack (d1 d2 : Option (List Nat)) : Track :=
  { status := .unknown, probed := true, data_mode := some 0,
    phys_cyl := 2, phys_head := 0, num_sectors := 2, sector_size_code := 0,
    sectors := [exSec 1 d1, exSec 2 d2] ++ List.replicate 62 EMPTY_SECTOR }

/-- A device whose probe replies alternate logical sectors 1 and 2 with
size code 0, whose whole-track read fails, whose single-sector reads all
succeed, and whose every sector reads as 128 nines. -/
def exRetryOracle : DevOracle :=
  { readid := fun k => some ⟨2, 0, (k % 2) + 1, 0⟩, trackRead := false,
    secRead := fun _ => true, medium := fun _ => List.replicate 128 9 }

/-- A device reachable only through single-sector reads, each sector id
reading as 128 copies of the id itself. -/
def exSecOracle : DevOracle :=
  { readid := fun _ => none, trackRead := false, secRead := fun _ => true,
    medium := fun id => List.replicate 128 id }

/-- A normal double-sided disk at the reference cylinder: every READID on
head h reports logical cylinder 2 (equal to the physical cylinder),
logical head h, sectors cycling 1, 2, 3, size code 2. -/
def exNormalRd : Nat → Nat → Option IdReply :=
  fun h k => some ⟨2, h, (k % 3) + 1, 2⟩

/-- C1 (code_bug): after a failed read_track attempt left sector 1's
payload acquired (128 fives) and sector 2 missing, the retry loop of
process_floppy clears the probed flag, so read_track reprobes; the
reprobe's free_track frees every sector buffer, and the retry then
re-fetches sector 1 from the device (now reading 128 nines) instead of
skipping it.  The spec requires already-acquired sector data to be
preserved and never re-fetched across retries; the code's own FIXME at
the reprobe site concedes the data is lost. -/
theorem claim_C1_retry_discards_acquired_data :
    (probe_track 64 exRetryOracle.readid
        { exTrack (some (List.replicate 128 5)) none with probed := false }).2.sectors.all
      (fun s => s.data.isNone) = true ∧
    (retry_step 64 exRetryOracle (exTrack (some (List.replicate 128 5)) none)).1 = .ok ∧
    ((retry_step 64 exRetryOracle (exTrack (some (List.replicate 128 5)) none)).2.sectors.getD 0
        EMPTY_SECTOR).log_sector = 1 ∧
    ((retry_step 64 exRetryOracle (exTrack (some (List.replicate 128 5)) none)).2.sectors.getD 0
        EMPTY_SECTOR).data = some (List.replicate 128 9) ∧
    ((exTrack (some (List.replicate 128 5)) none).sectors.getD 0 EMPTY_SECTOR).log_sector = 1 ∧
    ((exTrack (some (List.replicate 128 5)) none).sectors.getD 0 EMPTY_SECTOR).data
      = some (List.replicate 128 5) ∧
    (some (List.replicate 128 9) : Option (List Nat)) ≠ some (List.replicate 128 5) := by
  exact ⟨by decide, by decide, by decide, by decide, by decide, by decide, by decide⟩

/-! Status-preservation lemmas: the acquisition core never assigns
SECTOR_GOOD (free_track and free_sector assign SECTOR_MISSING; the probe
and read loops never touch the status field). -/

theorem free_track_all_missing (t : Track) :
    ∀ s ∈ (free_track t).sectors, s.status = SectorStatus.missing := by
  intro s hs
  rcases List.mem_map.mp hs with ⟨a, _, rfl⟩
  rfl

theorem getD_status_missing {l : List Sector} (h : ∀ s ∈ l, s.status = SectorStatus.missing)
    (i : Nat) : (l.getD i EMPTY_SECTOR).status = SectorStatus.missing := by
  by_cases hi : i < l.length
  · rw [List.getD_eq_getElem l EMPTY_SECTOR hi]
    exact h _ (List.getElem_mem hi)
  · rw [List.getD_eq_default l EMPTY_SECTOR (Nat.le_of_not_lt hi)]
    rfl

theorem track_readid_all_missing (maxSecs : Nat) (r : Option IdReply) (t : Track)
    (h : ∀ s ∈ t.sectors, s.status = SectorStatus.missing) :
    ∀ s ∈ (track_readid maxSecs r t).2.sectors, s.status = SectorStatus.missing := by
  intro s hs
  unfold track_readid at hs
  split at hs
  · exact h s hs
  · split at hs
    · exact h s hs
    · split at hs
      · exact h s hs
      · rcases List.mem_or_eq_of_mem_set hs with hmem | rfl
        · exact h s hmem
        · exact getD_status_missing h _

theorem probe_modes_iter_all_missing (maxSecs : Nat) (readid : Nat → Option IdReply) :
    ∀ (rem i : Nat) (t : Track),
    (∀ s ∈ t.sectors, s.status = SectorStatus.missing) →
    ∀ s ∈ (probe_modes_iter maxSecs readid rem i t).2.1.sectors,
      s.status = SectorStatus.missing := by
  intro rem
  induction rem with
  | zero => intro i t h; exact h
  | succ rem ih =>
    intro i t h s hs
    have h1 := track_readid_all_missing maxSecs (readid i) { t with data_mode := some i } h
    simp only [probe_modes_iter] at hs
    split at hs <;> rename_i heq <;> rw [heq] at h1
    · exact h1 s hs
    · exact h1 s hs
    · exact ih (i + 1) _ h1 s hs

theorem probe_modes_all_missing (maxSecs : Nat) (readid : Nat → Option IdReply) (t : Track)
    (i : Nat) (h : ∀ s ∈ t.sectors, s.status = SectorStatus.missing) :
    ∀ s ∈ (probe_modes maxSecs readid t i).2.1.sectors, s.status = SectorStatus.missing :=
  probe_modes_iter_all_missing maxSecs readid (DATA_MODES.length - i) i t h

theorem sample_loop_all_missing (maxSecs : Nat) (readid : Nat → Option IdReply) :
    ∀ (n k : Nat) (t : Track),
    (∀ s ∈ t.sectors, s.status = SectorStatus.missing) →
    ∀ s ∈ (sample_loop maxSecs readid k n t).2.sectors, s.status = SectorStatus.missing := by
  intro n
  induction n with
  | zero => intro k t h; exact h
  | succ n ih =>
    intro k t h s hs
    have h1 := track_readid_all_missing maxSecs (readid k) t h
    unfold sample_loop at hs
    split at hs <;> rename_i heq <;> rw [heq] at h1
    · exact ih (k + 1) _ h1 s hs
    · exact h1 s hs

theorem probe_extract_all_missing (maxSecs : Nat) (t3 : Track)
    (h : ∀ s ∈ t3.sectors, s.status = SectorStatus.missing) :
    ∀ s ∈ (probe_extract maxSecs t3).2.sectors, s.status = SectorStatus.missing := by
  intro s hs
  have hsub : ∀ (ns sp : Nat), s ∈ ((t3.sectors.drop sp).take ns ++ t3.sectors.drop ns) →
      s.status = SectorStatus.missing := by
    intro ns sp hmem
    rcases List.mem_append.mp hmem with h1 | h1
    · exact h s (List.drop_subset _ _ (List.take_subset _ _ h1))
    · exact h s (List.drop_subset _ _ h1)
  simp only [probe_extract] at hs
  split at hs
  · exact h s hs
  · exact h s hs
  · split at hs
    · exact hsub _ _ hs
    · split at hs
      · exact hsub _ _ hs
      · exact hsub _ _ hs

theorem probe_track_all_missing (maxSecs : Nat) (readid : Nat → Option IdReply) (t : Track) :
    ∀ s ∈ (probe_track maxSecs readid t).2.sectors, s.status = SectorStatus.missing := by
  intro s hs
  simp only [probe_track] at hs
  have h1 := probe_modes_all_missing maxSecs readid
      { free_track t with num_sectors := 0, sector_size_code := -1 } 0
      (fun s2 hs2 => free_track_all_missing t s2 hs2)
  split at hs
  · rename_i t2 k heq
    rw [heq] at h1
    have h2 := sample_loop_all_missing maxSecs readid 30 k t2 h1
    split at hs <;> rename_i heq2 <;> rw [heq2] at h2
    · exact probe_extract_all_missing maxSecs _ h2 s hs
    · exact h2 s hs
  · rename_i r t2 x heq
    rw [heq] at h1
    exact h1 s hs

theorem acquire_one_status (size : Nat) (whole : Bool) (lowest_id : Nat) (buf : List Nat)
    (o : DevOracle) (s : Sector) :
    ((acquire_one size whole lowest_id buf o s).1).status = s.status := by
  unfold acquire_one
  split
  · rfl
  · split
    · rfl
    · split <;> rfl

theorem read_track_body_no_good (maxSecs : Nat) (o : DevOracle) (t1 : Track)
    (h : ∀ s ∈ t1.sectors, s.status ≠ SectorStatus.good) :
    ∀ s ∈ (read_track_body maxSecs o t1).2.sectors, s.status ≠ SectorStatus.good := by
  intro s hs
  simp only [read_track_body] at hs
  split at hs
  · exact h s hs
  · split at hs
    · exact h s hs
    · split at hs
      · exact h s hs
      · split at hs <;>
          (rcases List.mem_append.mp hs with h1 | h1
           · rcases List.mem_map.mp h1 with ⟨pair, hpair, rfl⟩
             rcases List.mem_map.mp hpair with ⟨x, hx, rfl⟩
             rw [acquire_one_status]
             exact h x (List.take_subset _ _ hx)
           · exact h s (List.drop_subset _ _ h1))

theorem read_track_no_good (maxSecs : Nat) (o : DevOracle) (t : Track)
    (h : ∀ s ∈ t.sectors, s.status ≠ SectorStatus.good) :
    ∀ s ∈ (read_track maxSecs o t).2.sectors, s.status ≠ SectorStatus.good := by
  intro s hs
  simp only [read_track] at hs
  rcases hq : (if t.probed then ((.ok, t) : Outcome × Track)
      else probe_track maxSecs o.readid t) with ⟨o1, t1⟩
  have ht1 : ∀ s2 ∈ t1.sectors, s2.status ≠ SectorStatus.good := by
    by_cases hb : t.probed
    · rw [if_pos hb] at hq
      injection hq with h1 h2
      subst h2
      exact h
    · rw [if_neg hb] at hq
      intro s2 hs2
      have hm := probe_track_all_missing maxSecs o.readid t s2 (by rw [hq]; exact hs2)
      rw [hm]
      simp
  rw [hq] at hs
  cases o1
  case ok => exact read_track_body_no_good maxSecs o t1 ht1 s hs
  all_goals exact ht1 s hs

theorem probe_extract_ok_probed (maxSecs : Nat) (t3 t4 : Track)
    (h : probe_extract maxSecs t3 = (Outcome.ok, t4)) : t4.probed = true := by
  simp only [probe_extract] at h
  split at h
  · simp at h
  · simp at h
  · split at h
    · simp at h
    · split at h
      · simp at h
      · rw [Prod.mk.injEq] at h
        rw [← h.2]

theorem probe_track_ok_probed (maxSecs : Nat) (readid : Nat → Option IdReply) (t t1 : Track)
    (h : probe_track maxSecs readid t = (Outcome.ok, t1)) : t1.probed = true := by
  simp only [probe_track] at h
  split at h
  · split at h
    · exact probe_extract_ok_probed maxSecs _ t1 h
    · simp at h
      rename_i hno heq
      exact absurd h.1 hno
  · simp at h
    rename_i hno heq
    exact absurd h.1 hno

/-- C2 counterexample: a successful single-sector read through read_track
leaves the sector with a populated data buffer while its status is still
SECTOR_MISSING, not SECTOR_GOOD (the read path never updates status), so
"data non-null iff status Good" fails. -/
theorem claim_C2_counterexample :
    ((read_track 64 exSecOracle (exTrack none none)).2.sectors.getD 0 EMPTY_SECTOR).data ≠ none ∧
    ((read_track 64 exSecOracle (exTrack none none)).2.sectors.getD 0 EMPTY_SECTOR).status
        = SectorStatus.missing ∧
    ((read_track 64 exSecOracle (exTrack none none)).2.sectors.getD 0 EMPTY_SECTOR).status
        ≠ SectorStatus.good ∧
    (read_track 64 exSecOracle (exTrack none none)).1 = .ok := by
  exact ⟨by decide, by decide, by decide, by decide⟩

/-- C2 amended: what actually holds of the sector lifecycle in disk.c and
dumpfloppy.c.  init_sector and free_sector both establish status
SECTOR_MISSING with a null data buffer; a failed single-sector read frees
the buffer again (data null) and leaves the status field untouched; and no
operation of the acquisition core ever assigns SECTOR_GOOD — probe_track
leaves every sector's status SECTOR_MISSING, and read_track preserves
non-Goodness — so a populated buffer coexists with status Missing and the
claimed biconditional "data non-null iff status Good" fails in the
populated direction. -/
theorem claim_C2_amended (maxSecs : Nat) (o : DevOracle) (t : Track) (s0 : Sector)
    (h : ∀ s ∈ t.sectors, s.status ≠ SectorStatus.good) :
    ((init_sector s0).status = SectorStatus.missing ∧ (init_sector s0).data = none) ∧
    ((free_sector s0).status = SectorStatus.missing ∧ (free_sector s0).data = none) ∧
    (∀ size lowest_id buf, s0.data = none → o.secRead s0.log_sector = false →
        (acquire_one size false lowest_id buf o s0).1.data = none ∧
        (acquire_one size false lowest_id buf o s0).1.status = s0.status ∧
        (acquire_one size false lowest_id buf o s0).2 = false) ∧
    (∀ s ∈ (probe_track maxSecs o.readid t).2.sectors, s.status = SectorStatus.missing) ∧
    (∀ s ∈ (read_track maxSecs o t).2.sectors, s.status ≠ SectorStatus.good) := by
  refine ⟨⟨rfl, rfl⟩, ⟨rfl, rfl⟩, ?_, probe_track_all_missing maxSecs o.readid t,
    read_track_no_good maxSecs o t h⟩
  intro size lowest_id buf hd hr
  simp [acquire_one, hd, hr]

/-- Witness for the amended C2 theorem: its hypothesis and conclusion at
the concrete probed two-sector track, the single-sector-read device and
the empty sector. -/
theorem claim_C2_amended_witness :
    (∀ s ∈ (exTrack none none).sectors, s.status ≠ SectorStatus.good) ∧
    (((init_sector EMPTY_SECTOR).status = SectorStatus.missing ∧
        (init_sector EMPTY_SECTOR).data = none) ∧
      ((free_sector EMPTY_SECTOR).status = SectorStatus.missing ∧
        (free_sector EMPTY_SECTOR).data = none) ∧
      (∀ size lowest_id buf, EMPTY_SECTOR.data = none →
          exSecOracle.secRead EMPTY_SECTOR.log_sector = false →
          (acquire_one size false lowest_id buf exSecOracle EMPTY_SECTOR).1.data = none ∧
          (acquire_one size false lowest_id buf exSecOracle EMPTY_SECTOR).1.status
            = EMPTY_SECTOR.status ∧
          (acquire_one size false lowest_id buf exSecOracle EMPTY_SECTOR).2 = false) ∧
      (∀ s ∈ (probe_track 64 exSecOracle.readid (exTrack none none)).2.sectors,
        s.status = SectorStatus.missing) ∧
      (∀ s ∈ (read_track 64 exSecOracle (exTrack none none)).2.sectors,
        s.status ≠ SectorStatus.good)) :=
  ⟨by decide, claim_C2_amended 64 exSecOracle (exTrack none none) EMPTY_SECTOR (by decide)⟩

/-- C3 (code_bug): EMPTY_DISK's designated initializer does not mention
cyl_step, so init_disk leaves it zero, and probe_disk only ever assigns
cyl_step = 2 (doublestepping); on a normal disk whose logical cylinder
equals the physical cylinder the inference takes no branch that writes
cyl_step, so after initialization and geometry inference cyl_step is 0,
not 1, and the bulk acquisition loop's `cyl += disk.cyl_step` never
advances past cylinder 0. -/
theorem claim_C3_cyl_step_stays_zero :
    (init_disk 64).cyl_step = 0 ∧
    (probe_disk 64 exNormalRd (process_start 64 80)).1 = .ok .doubleSided ∧
    (((probe_disk 64 exNormalRd (process_start 64 80)).2.tracks 2 0).sectors.getD 0
        EMPTY_SECTOR).log_cyl = 2 ∧
    ((probe_disk 64 exNormalRd (process_start 64 80)).2.tracks 2 0).phys_cyl = 2 ∧
    (probe_disk 64 exNormalRd (process_start 64 80)).2.cyl_step = 0 ∧
    (probe_disk 64 exNormalRd (process_start 64 80)).2.cyl_step ≠ 1 ∧
    next_cyl (probe_disk 64 exNormalRd (process_start 64 80)).2 0 = 0 := by
  exact ⟨by decide, by decide, by decide, by decide, by decide, by decide, by decide⟩

/-- C6: at the reference cylinder (physical cylinder 2), when both heads
of the disk probe successfully, geometry inference dies ("80T disk in 40T
drive") when head 0's first sector's logical cylinder equals twice the
physical cylinder, and sets cyl_step = 2 ("doublestepping") when twice
the logical cylinder equals the physical cylinder. -/
theorem claim_C6_doublestep_inference (maxSecs : Nat) (rd : Nat → Nat → Option IdReply)
    (d : Disk) (t0 t1 : Track)
    (hh : d.num_phys_heads = 2)
    (h0 : probe_track maxSecs (rd 0) (d.tracks 2 0) = (Outcome.ok, t0))
    (h1 : probe_track maxSecs (rd 1) (d.tracks 2 1) = (Outcome.ok, t1))
    (hphys : t0.phys_cyl = 2) :
    (((t0.sectors.getD 0 EMPTY_SECTOR).log_cyl : Int) = t0.phys_cyl * 2 →
      (probe_disk maxSecs rd d).1 = ProbeDiskOut.fatal) ∧
    (((t0.sectors.getD 0 EMPTY_SECTOR).log_cyl : Int) * 2 = t0.phys_cyl →
      (probe_disk maxSecs rd d).2.cyl_step = 2 ∧
      ∃ c, (probe_disk maxSecs rd d).1 = ProbeDiskOut.ok c) := by
  have hupd1 : (upd_tracks d.tracks 2 0 t0) 2 1 = d.tracks 2 1 := by
    simp [upd_tracks]
  have hH0 : probe_heads maxSecs rd 0 (0 + 1 + 1) d =
      (Outcome.ok, { d with tracks := upd_tracks (upd_tracks d.tracks 2 0 t0) 2 1 t1 }) := by
    simp only [probe_heads, h0, Nat.zero_add, hupd1, h1]
  have he : d.num_phys_heads.toNat = 0 + 1 + 1 := by
    rw [hh]
    rfl
  have hH : probe_heads maxSecs rd 0 d.num_phys_heads.toNat d =
      (Outcome.ok, { d with tracks := upd_tracks (upd_tracks d.tracks 2 0 t0) 2 1 t1 }) := by
    rw [he]
    exact hH0
  have hside0 : (upd_tracks (upd_tracks d.tracks 2 0 t0) 2 1 t1) 2 0 = t0 := by
    simp [upd_tracks]
  have hside1 : (upd_tracks (upd_tracks d.tracks 2 0 t0) 2 1 t1) 2 1 = t1 := by
    simp [upd_tracks]
  have hp0 : t0.probed = true := probe_track_ok_probed maxSecs (rd 0) _ t0 h0
  have hp1 : t1.probed = true := probe_track_ok_probed maxSecs (rd 1) _ t1 h1
  constructor
  · intro hlc
    have hlc4 : (t0.sectors.getD 0 EMPTY_SECTOR).log_cyl = 4 := by
      rw [hphys] at hlc
      exact_mod_cast hlc
    have hchk : cyl_step_check (t0.sectors.getD 0 EMPTY_SECTOR).log_cyl t0.phys_cyl
        = StepCheck.fatalStep := by
      rw [hphys, hlc4]
      decide
    simp only [List.getD, List.get?_eq_getElem?] at hchk
    simp [probe_disk, hH, hside0, hside1, hp0, hp1, hchk]
  · intro hlc
    have hlc1 : (t0.sectors.getD 0 EMPTY_SECTOR).log_cyl = 1 := by
      rw [hphys] at hlc
      have h2 : (t0.sectors.getD 0 EMPTY_SECTOR).log_cyl * 2 = 2 := by exact_mod_cast hlc
      omega
    have hchk : cyl_step_check (t0.sectors.getD 0 EMPTY_SECTOR).log_cyl t0.phys_cyl
        = StepCheck.step2 := by
      rw [hphys, hlc1]
      decide
    simp only [List.getD, List.get?_eq_getElem?] at hchk
    simp [probe_disk, hH, hside0, hside1, hp0, hp1, hchk]

/-- A doublestepped disk at the reference cylinder: every READID reports
logical cylinder 1, half the physical cylinder 2. -/
def exDoubleRd : Nat → Nat → Option IdReply := fun h k => some ⟨1, h, (k % 3) + 1, 2⟩

/-- An 80-track disk in a 40-track drive: every READID reports logical
cylinder 4, twice the physical cylinder 2. -/
def exFatalRd : Nat → Nat → Option IdReply := fun h k => some ⟨4, h, (k % 3) + 1, 2⟩

/-- Witness for C6 at two concrete disks: the half-cylinder disk gets
cyl_step = 2 and the doubled-cylinder disk is fatal. -/
theorem claim_C6_witness :
    (process_start 64 80).num_phys_heads = 2 ∧
    (probe_disk 64 exDoubleRd (process_start 64 80)).2.cyl_step = 2 ∧
    (probe_disk 64 exFatalRd (process_start 64 80)).1 = ProbeDiskOut.fatal := by
  refine ⟨rfl, ?_, ?_⟩
  · exact ((claim_C6_doublestep_inference 64 exDoubleRd (process_start 64 80)
      (probe_track 64 (exDoubleRd 0) ((process_start 64 80).tracks 2 0)).2
      (probe_track 64 (exDoubleRd 1) ((process_start 64 80).tracks 2 1)).2
      rfl rfl rfl (by decide)).2 (by decide)).1
  · exact (claim_C6_doublestep_inference 64 exFatalRd (process_start 64 80)
      (probe_track 64 (exFatalRd 0) ((process_start 64 80).tracks 2 0)).2
      (probe_track 64 (exFatalRd 1) ((process_start 64 80).tracks 2 1)).2
      rfl rfl rfl (by decide)).1 (by decide)

theorem probe_modes_iter_none (maxSecs : Nat) (rd : Nat → Option IdReply)
    (hrd : ∀ k, rd k = none) :
    ∀ (rem i : Nat) (t : Track), t.num_sectors < (maxSecs : Int) →
    ∃ dm, probe_modes_iter maxSecs rd rem i t = (Outcome.failed, { t with data_mode := dm }, i + rem) := by
  intro rem
  induction rem with
  | zero =>
    intro i t _
    exact ⟨t.data_mode, rfl⟩
  | succ rem ih =>
    intro i t hlt
    have hri : track_readid maxSecs (rd i) { t with data_mode := some i }
        = (Outcome.failed, { t with data_mode := some i }) := by
      unfold track_readid
      rw [hrd i]
      rw [if_neg (not_le.mpr hlt)]
    obtain ⟨dm, hrec⟩ := ih (i + 1) { t with data_mode := some i } hlt
    refine ⟨dm, ?_⟩
    have hadd : i + 1 + rem = i + (rem + 1) := by omega
    simp only [probe_modes_iter, hri, hrec, hadd]

theorem probe_track_none (maxSecs : Nat) (rd : Nat → Option IdReply) (t : Track)
    (hrd : ∀ k, rd k = none) (hms : 0 < maxSecs) :
    ∃ dm, probe_track maxSecs rd t =
      (Outcome.failed,
        { free_track t with num_sectors := 0, sector_size_code := -1, data_mode := dm }) := by
  obtain ⟨dm, hpm⟩ := probe_modes_iter_none maxSecs rd hrd (DATA_MODES.length - 0) 0
    { free_track t with num_sectors := 0, sector_size_code := -1 }
    (by show (0 : Int) < (maxSecs : Int); exact_mod_cast hms)
  refine ⟨dm, ?_⟩
  simp only [probe_track, probe_modes, hpm]

/-- C10 amended: when the probe on head 0 of the reference cylinder fails
without any successful ID read (unknown data mode) while head 1 probes
successfully, the disk is not classified single-sided, num_phys_heads
stays 2, and the cylinder-step inference compares head 0's still-unset
0xFF first-sector sentinel against physical cylinder 2, so it reports at
most a mismatch warning and leaves cyl_step unchanged.  (When the head-0
probe fails only AFTER a successful ID read, the stale first-sector
values are compared instead and can set cyl_step or be fatal — see the
counterexample.) -/
theorem claim_C10_amended (maxSecs : Nat) (rd : Nat → Nat → Option IdReply)
    (d : Disk) (t1 : Track)
    (hms : 0 < maxSecs)
    (hh : d.num_phys_heads = 2)
    (h20 : d.tracks 2 0 = init_track maxSecs 2 0)
    (hrd0 : ∀ k, rd 0 k = none)
    (h1 : probe_track maxSecs (rd 1) (d.tracks 2 1) = (Outcome.ok, t1)) :
    (probe_track maxSecs (rd 0) (d.tracks 2 0)).1 = Outcome.failed ∧
    (probe_disk maxSecs rd d).1 = ProbeDiskOut.ok SideClass.doubleSided ∧
    (probe_disk maxSecs rd d).2.num_phys_heads = 2 ∧
    (probe_disk maxSecs rd d).2.cyl_step = d.cyl_step := by
  obtain ⟨dm, hf⟩ := probe_track_none maxSecs (rd 0) (d.tracks 2 0) hrd0 hms
  set T0 : Track :=
    { free_track (d.tracks 2 0) with num_sectors := 0, sector_size_code := -1, data_mode := dm }
    with hT0
  have hT0sec : T0.sectors = List.replicate maxSecs EMPTY_SECTOR := by
    show (free_track (d.tracks 2 0)).sectors = _
    rw [h20]
    show (List.replicate maxSecs EMPTY_SECTOR).map free_sector = _
    rw [List.map_replicate]
    rfl
  have hT0probed : T0.probed = false := by
    show (d.tracks 2 0).probed = false
    rw [h20]
    rfl
  have hT0phys : T0.phys_cyl = 2 := by
    show (d.tracks 2 0).phys_cyl = 2
    rw [h20]
    rfl
  have hsec0 : T0.sectors.getD 0 EMPTY_SECTOR = EMPTY_SECTOR := by
    rw [hT0sec]
    obtain ⟨m, rfl⟩ : ∃ m, maxSecs = m + 1 := ⟨maxSecs - 1, by omega⟩
    rfl
  have hchk : cyl_step_check (T0.sectors.getD 0 EMPTY_SECTOR).log_cyl T0.phys_cyl
      = StepCheck.warn := by
    rw [hsec0, hT0phys]
    decide
  have hupd1 : (upd_tracks d.tracks 2 0 T0) 2 1 = d.tracks 2 1 := by
    simp [upd_tracks]
  have he : d.num_phys_heads.toNat = 0 + 1 + 1 := by
    rw [hh]
    rfl
  have hH : probe_heads maxSecs rd 0 2 d =
      (Outcome.ok, { d with tracks := upd_tracks (upd_tracks d.tracks 2 0 T0) 2 1 t1 }) := by
    show probe_heads maxSecs rd 0 (0 + 1 + 1) d = _
    simp only [probe_heads, hf, Nat.zero_add, hupd1, h1]
  have hside0 : (upd_tracks (upd_tracks d.tracks 2 0 T0) 2 1 t1) 2 0 = T0 := by
    simp [upd_tracks]
  have hside1 : (upd_tracks (upd_tracks d.tracks 2 0 T0) 2 1 t1) 2 1 = t1 := by
    simp [upd_tracks]
  have hp1 : t1.probed = true := probe_track_ok_probed maxSecs (rd 1) _ t1 h1
  have hsl : (T0.sectors.getD 0 EMPTY_SECTOR).log_head = 255 := by
    rw [hsec0]
    rfl
  refine ⟨by rw [hf], ?_⟩
  simp only [List.getD, List.get?_eq_getElem?] at hchk hsl
  simp [probe_disk, hH, hside0, hside1, hT0probed, hp1, hchk, hsl, hh]

/-- A device for which head 0's probe finds a data mode (one successful
READID reporting logical cylinder 1) and then fails during sampling,
while head 1 probes successfully. -/
def exStaleRd : Nat → Nat → Option IdReply := fun h k =>
  if h = 0 then (if k = 0 then some ⟨1, 0, 1, 2⟩ else none)
  else some ⟨2, 1, (k % 3) + 1, 2⟩

/-- C10 counterexample: when the head-0 probe fails only AFTER a
successful ID read (which recorded logical cylinder 1), the disk is still
classified double-sided with two heads, but the cylinder-step inference
reads the stale first-sector values instead of 0xFF sentinels: logical
cylinder 1 doubled equals the physical cylinder 2, so cyl_step is SET to
2, not left unchanged as the claim as stated requires. -/
theorem claim_C10_counterexample :
    (probe_track 64 (exStaleRd 0) ((process_start 64 80).tracks 2 0)).1 = Outcome.failed ∧
    (probe_track 64 (exStaleRd 1) ((process_start 64 80).tracks 2 1)).1 = Outcome.ok ∧
    (probe_disk 64 exStaleRd (process_start 64 80)).1 = ProbeDiskOut.ok SideClass.doubleSided ∧
    (process_start 64 80).cyl_step = 0 ∧
    (probe_disk 64 exStaleRd (process_start 64 80)).2.cyl_step = 2 ∧
    (probe_disk 64 exStaleRd (process_start 64 80)).2.cyl_step
      ≠ (process_start 64 80).cyl_step := by
  exact ⟨by decide, by decide, by decide, by decide, by decide, by decide⟩

/-- A device whose head 0 never answers a READID while head 1 probes
successfully. -/
def exHead0DeadRd : Nat → Nat → Option IdReply := fun h k =>
  if h = 0 then none else some ⟨2, 1, (k % 3) + 1, 2⟩

/-- Witness for the amended C10 theorem at the concrete
head-0-unreadable disk. -/
theorem claim_C10_witness :
    (0 < 64 ∧ (process_start 64 80).num_phys_heads = 2 ∧
      (process_start 64 80).tracks 2 0 = init_track 64 2 0 ∧
      (∀ k, exHead0DeadRd 0 k = none)) ∧
    ((probe_disk 64 exHead0DeadRd (process_start 64 80)).1
        = ProbeDiskOut.ok SideClass.doubleSided ∧
      (probe_disk 64 exHead0DeadRd (process_start 64 80)).2.num_phys_heads = 2 ∧
      (probe_disk 64 exHead0DeadRd (process_start 64 80)).2.cyl_step
        = (process_start 64 80).cyl_step) :=
  ⟨⟨by decide, rfl, rfl, fun _ => rfl⟩,
    (claim_C10_amended 64 exHead0DeadRd (process_start 64 80)
      (probe_track 64 (exHead0DeadRd 1) ((process_start 64 80).tracks 2 1)).2
      (by decide) rfl rfl (fun _ => rfl) rfl).2⟩

theorem lor_left_comm (a b c : Nat) : a ||| (b ||| c) = b ||| (a ||| c) := by
  rw [← Nat.lor_assoc, Nat.lor_comm a b, Nat.lor_assoc]

theorem if_prop_or_lor (P Q : Prop) [Decidable P] [Decidable Q] (x : Nat) :
    (if P ∨ Q then x else 0) = (if P then x else 0) ||| (if Q then x else 0) := by
  by_cases hP : P <;> by_cases hQ : Q <;>
    simp [hP, hQ, Nat.or_self, Nat.or_zero, Nat.zero_or]

theorem imd_flag_step_or (pc ph : Int) (init : Nat) (s : Sector) :
    imd_flag_step pc ph init s =
      init ||| ((if ((s.log_cyl % 256 : Nat) : Int) ≠ pc then 128 else 0) |||
                (if ((s.log_head % 256 : Nat) : Int) ≠ ph then 64 else 0)) := by
  unfold imd_flag_step
  split <;> split <;>
    simp [Nat.lor_assoc, Nat.or_zero, Nat.zero_or]

theorem foldl_flag_or (pc ph : Int) :
    ∀ (l : List Sector) (init : Nat),
    l.foldl (imd_flag_step pc ph) init =
      init |||
        ((if l.any (fun s => decide (((s.log_cyl % 256 : Nat) : Int) ≠ pc)) then 128 else 0) |||
         (if l.any (fun s => decide (((s.log_head % 256 : Nat) : Int) ≠ ph)) then 64 else 0)) := by
  intro l
  induction l with
  | nil => intro init; simp
  | cons s l ih =>
    intro init
    simp only [List.foldl_cons, List.any_cons, ih, imd_flag_step_or, Bool.or_eq_true,
      decide_eq_true_eq, if_prop_or_lor]
    simp only [Nat.lor_assoc]
    rw [lor_left_comm (if ((s.log_head % 256 : Nat) : Int) ≠ ph then 64 else 0)]

theorem any_congr_mem {α : Type} (l : List α) (p q : α → Bool) (h : ∀ a ∈ l, p a = q a) :
    l.any p = l.any q := by
  induction l with
  | nil => rfl
  | cons x xs ih =>
    simp only [List.any_cons, h x (List.mem_cons_self x xs),
      ih (fun a ha => h a (List.mem_cons_of_mem x ha))]

theorem imd_track_flags_eq (t : Track) :
    imd_track_flags t =
      (if (t.sectors.take t.num_sectors.toNat).any
          (fun s => decide (((s.log_cyl % 256 : Nat) : Int) ≠ t.phys_cyl)) then 128 else 0) |||
      (if (t.sectors.take t.num_sectors.toNat).any
          (fun s => decide (((s.log_head % 256 : Nat) : Int) ≠ t.phys_head)) then 64 else 0) := by
  unfold imd_track_flags
  rw [foldl_flag_or]
  exact Nat.zero_or _

/-- C7: serializing a track emits the logical-cylinder map iff some
sector's logical cylinder differs from the track's physical cylinder, and
the logical-head map iff some logical head differs from the physical
head; the presence of each map is signalled by the 0x80 / 0x40 flag bits
of the third header byte (flags | phys_head); the sector-number map is
always emitted, and when every logical value equals the physical position
both optional maps are omitted.  Stated for 8-bit logical values and a
physical head of 0 or 1, as the hardware delivers. -/
theorem claim_C7_map_omission (t : Track) (dm : DataMode)
    (hdm : t.data_mode.bind (fun m => DATA_MODES.get? m) = some dm)
    (hph : t.phys_head = 0 ∨ t.phys_head = 1)
    (h8 : ∀ s ∈ t.sectors.take t.num_sectors.toNat, s.log_cyl < 256 ∧ s.log_head < 256) :
    ∃ out, write_imd_track t = some out ∧
      out = [ (dm.imd_mode % 256).toNat, (t.phys_cyl % 256).toNat,
              (if ∃ s ∈ t.sectors.take t.num_sectors.toNat, (s.log_cyl : Int) ≠ t.phys_cyl
                then 128 else 0)
              + (if ∃ s ∈ t.sectors.take t.num_sectors.toNat, (s.log_head : Int) ≠ t.phys_head
                  then 64 else 0)
              + t.phys_head.toNat,
              (t.num_sectors % 256).toNat, (t.sector_size_code % 256).toNat ]
            ++ (t.sectors.take t.num_sectors.toNat).map (fun s => s.log_sector % 256)
            ++ (if ∃ s ∈ t.sectors.take t.num_sectors.toNat, (s.log_cyl : Int) ≠ t.phys_cyl
                then (t.sectors.take t.num_sectors.toNat).map (fun s => s.log_cyl % 256) else [])
            ++ (if ∃ s ∈ t.sectors.take t.num_sectors.toNat, (s.log_head : Int) ≠ t.phys_head
                then (t.sectors.take t.num_sectors.toNat).map (fun s => s.log_head % 256) else [])
            ++ ((t.sectors.take t.num_sectors.toNat).map
                (imd_sector_record (sector_bytes t.sector_size_code.toNat))).flatten := by
  have hCany : (t.sectors.take t.num_sectors.toNat).any
        (fun s => decide (((s.log_cyl % 256 : Nat) : Int) ≠ t.phys_cyl))
      = (t.sectors.take t.num_sectors.toNat).any
        (fun s => decide ((s.log_cyl : Int) ≠ t.phys_cyl)) := by
    apply any_congr_mem
    intro a ha
    rw [Nat.mod_eq_of_lt (h8 a ha).1]
  have hHany : (t.sectors.take t.num_sectors.toNat).any
        (fun s => decide (((s.log_head % 256 : Nat) : Int) ≠ t.phys_head))
      = (t.sectors.take t.num_sectors.toNat).any
        (fun s => decide ((s.log_head : Int) ≠ t.phys_head)) := by
    apply any_congr_mem
    intro a ha
    rw [Nat.mod_eq_of_lt (h8 a ha).2]
  have hCiff : ((t.sectors.take t.num_sectors.toNat).any
        (fun s => decide ((s.log_cyl : Int) ≠ t.phys_cyl)) = true)
      ↔ (∃ s ∈ t.sectors.take t.num_sectors.toNat, (s.log_cyl : Int) ≠ t.phys_cyl) := by
    simp [List.any_eq_true]
  have hHiff : ((t.sectors.take t.num_sectors.toNat).any
        (fun s => decide ((s.log_head : Int) ≠ t.phys_head)) = true)
      ↔ (∃ s ∈ t.sectors.take t.num_sectors.toNat, (s.log_head : Int) ≠ t.phys_head) := by
    simp [List.any_eq_true]
  have hflags := imd_track_flags_eq t
  rw [hCany, hHany] at hflags
  have hCb : (t.sectors.take t.num_sectors.toNat).any
      (fun s => decide ((s.log_cyl : Int) ≠ t.phys_cyl))
      = decide (∃ s ∈ t.sectors.take t.num_sectors.toNat, (s.log_cyl : Int) ≠ t.phys_cyl) := by
    by_cases hC : ∃ s ∈ t.sectors.take t.num_sectors.toNat, (s.log_cyl : Int) ≠ t.phys_cyl
    · rw [hCiff.mpr hC, decide_eq_true hC]
    · have h1 : (t.sectors.take t.num_sectors.toNat).any
          (fun s => decide ((s.log_cyl : Int) ≠ t.phys_cyl)) = false := by
        rw [← Bool.not_eq_true]
        exact fun hcon => hC (hCiff.mp hcon)
      rw [h1, decide_eq_false hC]
  have hHb : (t.sectors.take t.num_sectors.toNat).any
      (fun s => decide ((s.log_head : Int) ≠ t.phys_head))
      = decide (∃ s ∈ t.sectors.take t.num_sectors.toNat, (s.log_head : Int) ≠ t.phys_head) := by
    by_cases hH : ∃ s ∈ t.sectors.take t.num_sectors.toNat, (s.log_head : Int) ≠ t.phys_head
    · rw [hHiff.mpr hH, decide_eq_true hH]
    · have h1 : (t.sectors.take t.num_sectors.toNat).any
          (fun s => decide ((s.log_head : Int) ≠ t.phys_head)) = false := by
        rw [← Bool.not_eq_true]
        exact fun hcon => hH (hHiff.mp hcon)
      rw [h1, decide_eq_false hH]
  rw [hCb, hHb] at hflags
  simp only [decide_eq_true_eq] at hflags
  refine ⟨_, ?_, rfl⟩
  show write_imd_track t = some _
  simp only [write_imd_track, hdm]
  by_cases hC : ∃ s ∈ t.sectors.take t.num_sectors.toNat, (s.log_cyl : Int) ≠ t.phys_cyl <;>
    by_cases hH : ∃ s ∈ t.sectors.take t.num_sectors.toNat, (s.log_head : Int) ≠ t.phys_head <;>
    simp [hflags, hC, hH] <;>
    rcases hph with hph | hph <;> rw [hph] <;>
    first
      | decide
      | exact ⟨by decide, fun hcon => absurd (by decide) hcon⟩

/-- Witness for C7 at the concrete probed two-sector track, whose data
mode is catalog entry 0 (imd mode byte 5). -/
theorem claim_C7_witness :
    ((exTrack none none).data_mode.bind (fun m => DATA_MODES.get? m)
        = some (⟨5, "MFM-250k", 2, false⟩ : DataMode) ∧
      ((exTrack none none).phys_head = 0 ∨ (exTrack none none).phys_head = 1) ∧
      (∀ s ∈ (exTrack none none).sectors.take (exTrack none none).num_sectors.toNat,
        s.log_cyl < 256 ∧ s.log_head < 256)) ∧
    (∃ out, write_imd_track (exTrack none none) = some out ∧
      out = [ ((5 : Int) % 256).toNat, ((exTrack none none).phys_cyl % 256).toNat,
              (if ∃ s ∈ (exTrack none none).sectors.take (exTrack none none).num_sectors.toNat, (s.log_cyl : Int) ≠ (exTrack none none).phys_cyl
                then 128 else 0)
              + (if ∃ s ∈ (exTrack none none).sectors.take (exTrack none none).num_sectors.toNat, (s.log_head : Int) ≠ (exTrack none none).phys_head
                  then 64 else 0)
              + (exTrack none none).phys_head.toNat,
              ((exTrack none none).num_sectors % 256).toNat, ((exTrack none none).sector_size_code % 256).toNat ]
            ++ ((exTrack none none).sectors.take (exTrack none none).num_sectors.toNat).map (fun s => s.log_sector % 256)
            ++ (if ∃ s ∈ (exTrack none none).sectors.take (exTrack none none).num_sectors.toNat, (s.log_cyl : Int) ≠ (exTrack none none).phys_cyl
                then ((exTrack none none).sectors.take (exTrack none none).num_sectors.toNat).map (fun s => s.log_cyl % 256) else [])
            ++ (if ∃ s ∈ (exTrack none none).sectors.take (exTrack none none).num_sectors.toNat, (s.log_head : Int) ≠ (exTrack none none).phys_head
                then ((exTrack none none).sectors.take (exTrack none none).num_sectors.toNat).map (fun s => s.log_head % 256) else [])
            ++ (((exTrack none none).sectors.take (exTrack none none).num_sectors.toNat).map
                (imd_sector_record (sector_bytes (exTrack none none).sector_size_code.toNat))).flatten) :=
  ⟨⟨rfl, Or.inl rfl, by decide⟩,
    claim_C7_map_omission (exTrack none none) ⟨5, "MFM-250k", 2, false⟩ rfl (Or.inl rfl) (by decide)⟩

theorem scan_step_lowest_id (i x : Nat) (st : ScanSt) :
    (scan_step i x st).lowest_id = min st.lowest_id x := by
  obtain ⟨lo, loid, hi, hiid⟩ := st
  simp only [scan_step]
  split <;> split <;> simp_all <;> omega

theorem scan_step_highest_id (i x : Nat) (st : ScanSt) :
    (scan_step i x st).highest_id = max st.highest_id x := by
  obtain ⟨lo, loid, hi, hiid⟩ := st
  simp only [scan_step]
  split <;> split <;> simp_all <;> omega

theorem scan_run_lowest_id (ids : List Nat) : ∀ (i : Nat) (st : ScanSt),
    (scan_run ids i st).lowest_id = ids.foldl min st.lowest_id := by
  induction ids with
  | nil => intro i st; rfl
  | cons x xs ih =>
    intro i st
    simp only [scan_run, List.foldl_cons, ih, scan_step_lowest_id]

theorem scan_run_highest_id (ids : List Nat) : ∀ (i : Nat) (st : ScanSt),
    (scan_run ids i st).highest_id = ids.foldl max st.highest_id := by
  induction ids with
  | nil => intro i st; rfl
  | cons x xs ih =>
    intro i st
    simp only [scan_run, List.foldl_cons, ih, scan_step_highest_id]

theorem foldl_min_le_init (ids : List Nat) : ∀ a, ids.foldl min a ≤ a := by
  induction ids with
  | nil => intro a; exact Nat.le_refl a
  | cons x xs ih =>
    intro a
    exact Nat.le_trans (ih (min a x)) (Nat.min_le_left a x)

theorem foldl_min_le_mem (ids : List Nat) : ∀ a, ∀ x ∈ ids, ids.foldl min a ≤ x := by
  induction ids with
  | nil => intro a x hx; cases hx
  | cons y ys ih =>
    intro a x hx
    rcases List.mem_cons.mp hx with rfl | hx2
    · exact Nat.le_trans (foldl_min_le_init ys (min a x)) (Nat.min_le_right a x)
    · exact ih (min a y) x hx2

theorem foldl_min_mem (ids : List Nat) : ∀ a, ids.foldl min a = a ∨ ids.foldl min a ∈ ids := by
  induction ids with
  | nil => intro a; exact Or.inl rfl
  | cons x xs ih =>
    intro a
    rcases ih (min a x) with h | h
    · rcases Nat.le_total a x with hax | hax
      · rw [List.foldl_cons, h, Nat.min_eq_left hax]
        exact Or.inl rfl
      · rw [List.foldl_cons, h, Nat.min_eq_right hax]
        exact Or.inr (List.mem_cons_self x xs)
    · exact Or.inr (List.mem_cons_of_mem x h)

theorem foldl_max_ge_init (ids : List Nat) : ∀ a, a ≤ ids.foldl max a := by
  induction ids with
  | nil => intro a; exact Nat.le_refl a
  | cons x xs ih =>
    intro a
    exact Nat.le_trans (Nat.le_max_left a x) (ih (max a x))

theorem foldl_max_ge_mem (ids : List Nat) : ∀ a, ∀ x ∈ ids, x ≤ ids.foldl max a := by
  induction ids with
  | nil => intro a x hx; cases hx
  | cons y ys ih =>
    intro a x hx
    rcases List.mem_cons.mp hx with rfl | hx2
    · exact Nat.le_trans (Nat.le_max_right a x) (foldl_max_ge_init ys (max a x))
    · exact ih (max a y) x hx2

theorem foldl_max_mem (ids : List Nat) : ∀ a, ids.foldl max a = a ∨ ids.foldl max a ∈ ids := by
  induction ids with
  | nil => intro a; exact Or.inl rfl
  | cons x xs ih =>
    intro a
    rcases ih (max a x) with h | h
    · rcases Nat.le_total a x with hax | hax
      · rw [List.foldl_cons, h, Nat.max_eq_right hax]
        exact Or.inr (List.mem_cons_self x xs)
      · rw [List.foldl_cons, h, Nat.max_eq_left hax]
        exact Or.inl rfl
    · exact Or.inr (List.mem_cons_of_mem x h)

/-- A probed track holding a single sector whose controller-reported
logical sector id is 255 — a legal 8-bit READID reply value that
track_readid stores without any check against MAX_SECS. -/
def oobTrack : Track :=
  { status := .unknown, probed := true, data_mode := some 0, phys_cyl := 2, phys_head := 0,
    num_sectors := 1, sector_size_code := 0,
    sectors := [{ EMPTY_SECTOR with log_sector := 255 }] }

/-- C9: under the precondition that every scanned sector's logical sector
id is below the MAX_SECS capacity, track_scan_sectors's seen[] indexing
stays in bounds (it returns a value instead of the out-of-bounds marker),
its lowest_id and highest_id are the minimum and maximum of the scanned
ids, and contiguous = true iff every id between the lowest and the
highest observed occurs at least once.  The precondition is necessary:
reported ids are 8-bit values up to 255, stored unchecked, and for every
capacity of at most 255 the track holding the single id 255 drives the
seen[] write out of bounds. -/
theorem claim_C9_track_scan_sectors (maxSecs : Nat) (t : Track)
    (hlt : ∀ s ∈ t.sectors.take t.num_sectors.toNat, s.log_sector < maxSecs)
    (hne : (t.sectors.take t.num_sectors.toNat).map (fun s => s.log_sector) ≠ []) :
    (∃ st cont, track_scan_sectors maxSecs t = some (st, cont) ∧
      (st.lowest_id ∈ (t.sectors.take t.num_sectors.toNat).map (fun s => s.log_sector) ∧
        ∀ x ∈ (t.sectors.take t.num_sectors.toNat).map (fun s => s.log_sector), st.lowest_id ≤ x) ∧
      (st.highest_id ∈ (t.sectors.take t.num_sectors.toNat).map (fun s => s.log_sector) ∧
        ∀ x ∈ (t.sectors.take t.num_sectors.toNat).map (fun s => s.log_sector), x ≤ st.highest_id) ∧
      (cont = true ↔ ∀ v, st.lowest_id ≤ v → v ≤ st.highest_id →
        v ∈ (t.sectors.take t.num_sectors.toNat).map (fun s => s.log_sector))) ∧
    ((oobTrack.sectors.getD 0 EMPTY_SECTOR).log_sector ≤ 255 ∧
      ∀ m, m ≤ 255 → track_scan_sectors m oobTrack = none) := by
  constructor
  · set ids := (t.sectors.take t.num_sectors.toNat).map (fun s => s.log_sector) with hids
    have hgate : ids.any (fun id => maxSecs ≤ id) = false := by
      rw [← Bool.not_eq_true]
      intro hcon
      rcases List.any_eq_true.mp hcon with ⟨x, hx, hxd⟩
      rcases List.mem_map.mp hx with ⟨s, hsmem, rfl⟩
      have h1 := hlt s hsmem
      have h2 : maxSecs ≤ s.log_sector := by simpa using hxd
      omega
    have hmin := scan_run_lowest_id ids 0 ⟨none, maxSecs, none, 0⟩
    have hmax := scan_run_highest_id ids 0 ⟨none, maxSecs, none, 0⟩
    have hlo_mem : (scan_run ids 0 ⟨none, maxSecs, none, 0⟩).lowest_id ∈ ids := by
      rcases foldl_min_mem ids maxSecs with h | h
      · exfalso
        obtain ⟨x, hx⟩ := List.exists_mem_of_ne_nil ids hne
        have h1 := foldl_min_le_mem ids maxSecs x hx
        rcases List.mem_map.mp hx with ⟨s, hsmem, rfl⟩
        have h2 := hlt s hsmem
        omega
      · rw [hmin]
        exact h
    have hhi_mem : (scan_run ids 0 ⟨none, maxSecs, none, 0⟩).highest_id ∈ ids := by
      rcases foldl_max_mem ids 0 with h | h
      · obtain ⟨x, hx⟩ := List.exists_mem_of_ne_nil ids hne
        have h1 := foldl_max_ge_mem ids 0 x hx
        have h2 : x = 0 := by omega
        rw [hmax, h]
        rw [h2] at hx
        exact hx
      · rw [hmax]
        exact h
    refine ⟨scan_run ids 0 ⟨none, maxSecs, none, 0⟩,
      (List.range' (scan_run ids 0 ⟨none, maxSecs, none, 0⟩).lowest_id
        ((scan_run ids 0 ⟨none, maxSecs, none, 0⟩).highest_id
          - (scan_run ids 0 ⟨none, maxSecs, none, 0⟩).lowest_id)).all
        (fun i => ids.contains i), ?_, ?_, ?_, ?_⟩
    · simp only [track_scan_sectors]
      rw [← hids, hgate]
      rfl
    · constructor
      · exact hlo_mem
      · intro x hx
        rw [hmin]
        exact foldl_min_le_mem ids maxSecs x hx
    · constructor
      · exact hhi_mem
      · intro x hx
        rw [hmax]
        exact foldl_max_ge_mem ids 0 x hx
    · rw [List.all_eq_true]
      constructor
      · intro h v h1 h2
        rcases Nat.eq_or_lt_of_le h2 with heq | h3
        · rw [heq]
          exact hhi_mem
        · have hv : v ∈ List.range' (scan_run ids 0 ⟨none, maxSecs, none, 0⟩).lowest_id
              ((scan_run ids 0 ⟨none, maxSecs, none, 0⟩).highest_id
                - (scan_run ids 0 ⟨none, maxSecs, none, 0⟩).lowest_id) :=
            List.mem_range'_1.mpr ⟨h1, by omega⟩
          exact List.mem_of_elem_eq_true (h v hv)
      · intro h v hv
        rcases List.mem_range'_1.mp hv with ⟨h1, h2⟩
        exact List.elem_eq_true_of_mem (h v h1 (by omega))
  · constructor
    · decide
    · intro m hm
      simp [track_scan_sectors, oobTrack, hm]

/-- Witness for C9 at the concrete probed two-sector track with capacity
64. -/
theorem claim_C9_witness :
    ((∀ s ∈ (exTrack none none).sectors.take (exTrack none none).num_sectors.toNat, s.log_sector < 64) ∧
      ((exTrack none none).sectors.take (exTrack none none).num_sectors.toNat).map (fun s => s.log_sector) ≠ []) ∧
    ((∃ st cont, track_scan_sectors 64 (exTrack none none) = some (st, cont) ∧
      (st.lowest_id ∈ ((exTrack none none).sectors.take (exTrack none none).num_sectors.toNat).map (fun s => s.log_sector) ∧
        ∀ x ∈ ((exTrack none none).sectors.take (exTrack none none).num_sectors.toNat).map (fun s => s.log_sector), st.lowest_id ≤ x) ∧
      (st.highest_id ∈ ((exTrack none none).sectors.take (exTrack none none).num_sectors.toNat).map (fun s => s.log_sector) ∧
        ∀ x ∈ ((exTrack none none).sectors.take (exTrack none none).num_sectors.toNat).map (fun s => s.log_sector), x ≤ st.highest_id) ∧
      (cont = true ↔ ∀ v, st.lowest_id ≤ v → v ≤ st.highest_id →
        v ∈ ((exTrack none none).sectors.take (exTrack none none).num_sectors.toNat).map (fun s => s.log_sector))) ∧
    ((oobTrack.sectors.getD 0 EMPTY_SECTOR).log_sector ≤ 255 ∧
      ∀ m, m ≤ 255 → track_scan_sectors m oobTrack = none)) :=
  ⟨⟨by decide, by decide⟩,
    claim_C9_track_scan_sectors 64 (exTrack none none) (by decide) (by decide)⟩

theorem find_last_min_aux_fst (l : List Nat) : ∀ (i es : Nat) (ep : Int),
    (find_last_min_aux i es ep l).1 = l.foldl min es := by
  induction l with
  | nil => intro i es ep; rfl
  | cons x xs ih =>
    intro i es ep
    simp only [find_last_min_aux, List.foldl_cons]
    by_cases hx : x ≤ es
    · rw [if_pos hx, ih, Nat.min_eq_right hx]
    · rw [if_neg hx, ih, Nat.min_eq_left (Nat.le_of_not_le hx)]

theorem find_last_min_aux_nohit (l : List Nat) : ∀ (i es : Nat) (ep : Int),
    (∀ x ∈ l, es < x) → find_last_min_aux i es ep l = (es, ep) := by
  induction l with
  | nil => intro i es ep _; rfl
  | cons x xs ih =>
    intro i es ep h
    simp only [find_last_min_aux]
    rw [if_neg (Nat.not_le.mpr (h x (List.mem_cons_self x xs)))]
    exact ih (i + 1) es ep (fun y hy => h y (List.mem_cons_of_mem x hy))

theorem find_last_min_aux_hit (l : List Nat) : ∀ (i es : Nat) (ep : Int),
    (∃ x ∈ l, x ≤ es) →
    ∃ p, p < l.length ∧ (find_last_min_aux i es ep l).2 = ((i + p : Nat) : Int) ∧
      l.get? p = some (find_last_min_aux i es ep l).1 ∧
      (∀ q v, p < q → l.get? q = some v → (find_last_min_aux i es ep l).1 < v) := by
  induction l with
  | nil => intro i es ep h; simp at h
  | cons x xs ih =>
    intro i es ep h
    by_cases hx : x ≤ es
    · simp only [find_last_min_aux, if_pos hx]
      by_cases hxs : ∃ y ∈ xs, y ≤ x
      · obtain ⟨p, hp, h2, h3, h4⟩ := ih (i + 1) x (i : Int) hxs
        refine ⟨p + 1, by simp only [List.length_cons]; omega, ?_, ?_, ?_⟩
        · rw [h2]
          push_cast
          ring
        · simpa using h3
        · intro q v hq hv
          cases q with
          | zero => omega
          | succ q2 =>
            simp only [List.get?_cons_succ] at hv
            exact h4 q2 v (by omega) hv
      · have hall : ∀ y ∈ xs, x < y := by
          intro y hy
          by_contra hcon
          exact hxs ⟨y, hy, Nat.le_of_not_lt hcon⟩
        rw [find_last_min_aux_nohit xs (i + 1) x (i : Int) hall]
        refine ⟨0, by simp, by simp, by simp, ?_⟩
        intro q v hq hv
        cases q with
        | zero => omega
        | succ q2 =>
          simp only [List.get?_cons_succ] at hv
          exact hall v (List.get?_mem hv)
    · simp only [find_last_min_aux, if_neg hx]
      have hxs : ∃ y ∈ xs, y ≤ es := by
        obtain ⟨y, hy, hyle⟩ := h
        rcases List.mem_cons.mp hy with rfl | hy2
        · exact absurd hyle hx
        · exact ⟨y, hy2, hyle⟩
      obtain ⟨p, hp, h2, h3, h4⟩ := ih (i + 1) es ep hxs
      refine ⟨p + 1, by simp only [List.length_cons]; omega, ?_, ?_, ?_⟩
      · rw [h2]
        push_cast
        ring
      · simpa using h3
      · intro q v hq hv
        cases q with
        | zero => omega
        | succ q2 =>
          simp only [List.get?_cons_succ] at hv
          exact h4 q2 v (by omega) hv

theorem scan_back_nat_notfound (ids : List Nat) (es : Nat) : ∀ (sp : Nat), sp < ids.length →
    (∀ q v, q ≤ sp → ids.get? q = some v → v ≠ es) →
    scan_back_nat ids es sp = some none := by
  intro sp
  induction sp with
  | zero =>
    intro hlen h
    obtain ⟨v, hv⟩ : ∃ v, ids.get? 0 = some v := by
      cases hg : ids.get? 0 with
      | none => rw [List.get?_eq_none] at hg; omega
      | some v => exact ⟨v, rfl⟩
    simp only [scan_back_nat, hv]
    rw [if_neg (h 0 v (Nat.le_refl 0) hv)]
  | succ sp ih =>
    intro hlen h
    obtain ⟨v, hv⟩ : ∃ v, ids.get? (sp + 1) = some v := by
      cases hg : ids.get? (sp + 1) with
      | none => rw [List.get?_eq_none] at hg; omega
      | some v => exact ⟨v, rfl⟩
    simp only [scan_back_nat, hv]
    rw [if_neg (h (sp + 1) v (Nat.le_refl _) hv)]
    exact ih (by omega) (fun q w hq hw => h q w (by omega) hw)

theorem scan_back_nat_found (ids : List Nat) (es : Nat) : ∀ (sp : Nat), sp < ids.length →
    ∀ j, j ≤ sp → ids.get? j = some es →
    (∀ q v, j < q → q ≤ sp → ids.get? q = some v → v ≠ es) →
    scan_back_nat ids es sp = some (some j) := by
  intro sp
  induction sp with
  | zero =>
    intro hlen j hj hjv _
    have hj0 : j = 0 := by omega
    subst hj0
    simp only [scan_back_nat, hjv]
    simp
  | succ sp ih =>
    intro hlen j hj hjv hno
    by_cases hje : j = sp + 1
    · subst hje
      simp only [scan_back_nat, hjv]
      simp
    · obtain ⟨v, hv⟩ : ∃ v, ids.get? (sp + 1) = some v := by
        cases hg : ids.get? (sp + 1) with
        | none => rw [List.get?_eq_none] at hg; omega
        | some v => exact ⟨v, rfl⟩
      simp only [scan_back_nat, hv]
      rw [if_neg (hno (sp + 1) v (by omega) (Nat.le_refl _) hv)]
      exact ih (by omega) j (by omega) hjv
        (fun q w hq1 hq2 hw => hno q w hq1 (by omega) hw)

/-- C5 amended: if the numerically lowest id of the sample occurs exactly
once at a position other than the first, the rotation extraction fails
deterministically — it reports failure ("lowest sector only seen once")
and adopts no rotation.  (When the single occurrence is at the first
sample position, the backward scan's first read is at index -1, an
out-of-bounds access rather than the clean failure — see the
counterexample.) -/
theorem claim_C5_amended (maxSecs : Nat) (ids : List Nat) (M j : Nat)
    (hj : ids.get? j = some M) (hM : M ≤ maxSecs) (hj0 : 0 < j)
    (hmin : ∀ q, q < ids.length → q ≠ j → M < ids.getD q 0) :
    extract_rotation maxSecs ids = some none := by
  have hjlen : j < ids.length := (List.get?_eq_some.mp hj).1
  have hmin2 : ∀ q v, q ≠ j → ids.get? q = some v → M < v := by
    intro q v hq hv
    have hqlen : q < ids.length := (List.get?_eq_some.mp hv).1
    have hgd : ids.getD q 0 = v := by
      rw [List.getD_eq_getElem ids 0 hqlen]
      rw [List.get?_eq_get hqlen] at hv
      exact (Option.some.inj hv)
    rw [← hgd]
    exact hmin q hqlen hq
  have hhit : ∃ x ∈ ids, x ≤ maxSecs := ⟨M, List.get?_mem hj, hM⟩
  obtain ⟨p, hp, h2, h3, h4⟩ := find_last_min_aux_hit ids 0 maxSecs (-1) hhit
  have hle : (find_last_min_aux 0 maxSecs (-1) ids).1 ≤ M := by
    rw [find_last_min_aux_fst]
    exact foldl_min_le_mem ids maxSecs M (List.get?_mem hj)
  have hpj : p = j := by
    by_contra hne
    have := hmin2 p (find_last_min_aux 0 maxSecs (-1) ids).1 hne h3
    omega
  subst hpj
  have hfm1 : (find_last_min_aux 0 maxSecs (-1) ids).1 = M := by
    rw [hj] at h3
    exact (Option.some.inj h3).symm
  have hsb : scan_back ids M (((0 + p : Nat) : Int) - 1) = some none := by
    unfold scan_back
    rw [if_neg (by push_cast; omega : ¬((0 + p : Nat) : Int) - 1 < 0)]
    have ht : (((0 + p : Nat) : Int) - 1).toNat = p - 1 := by push_cast; omega
    rw [ht]
    apply scan_back_nat_notfound ids M (p - 1) (by omega)
    intro q v hq hv
    exact Nat.ne_of_gt (hmin2 q v (by omega) hv)
  simp only [extract_rotation, find_last_min]
  rw [hfm1, h2, hsb]

/-- A device whose probe sees logical sector 1 exactly once (the mode
detection read) and sector 2 on every later READID. -/
def exOnceRd : Nat → Option IdReply := fun k =>
  if k = 0 then some ⟨2, 0, 1, 2⟩ else some ⟨2, 0, 2, 2⟩

/-- C5 counterexample: when the lowest id's single occurrence is the
FIRST sample position, the extraction does not fail cleanly — the
backward scan starts at index -1 and reads out of bounds before the
bounds check (undefined behaviour), so the claim's "fails
deterministically, reports failure" is false as stated: the probe ends in
the out-of-bounds outcome, not the failure outcome. -/
theorem claim_C5_counterexample :
    (1 :: List.replicate 30 2).count 1 = 1 ∧
    (∀ x ∈ (1 :: List.replicate 30 2), 1 ≤ x) ∧
    extract_rotation 64 (1 :: List.replicate 30 2) = none ∧
    extract_rotation 64 (1 :: List.replicate 30 2) ≠ some none ∧
    (probe_track 64 exOnceRd (init_track 64 2 0)).1 = Outcome.ub ∧
    (probe_track 64 exOnceRd (init_track 64 2 0)).1 ≠ Outcome.failed := by
  exact ⟨by decide, by decide, by decide, by decide, by decide, by decide⟩

/-- Witness for the amended C5 theorem at the sample [2, 1, 2], whose
minimum 1 occurs once at position 1. -/
theorem claim_C5_witness :
    (([2, 1, 2] : List Nat).get? 1 = some 1 ∧ (1 : Nat) ≤ 64 ∧ (0 : Nat) < 1 ∧
      (∀ q, q < ([2, 1, 2] : List Nat).length → q ≠ 1 → 1 < ([2, 1, 2] : List Nat).getD q 0)) ∧
    extract_rotation 64 [2, 1, 2] = some none :=
  ⟨⟨rfl, by decide, by decide, by decide⟩,
    claim_C5_amended 64 [2, 1, 2] 1 1 rfl (by decide) (by decide) (by decide)⟩

theorem mod_hit (k m p : Nat) (hp0 : 0 < p) (hm : m < p) :
    (k + (m + p - k % p) % p) % p = m := by
  have ha : k % p < p := Nat.mod_lt _ hp0
  by_cases hc : k % p ≤ m
  · have ht : (m + p - k % p) % p = m - k % p := by
      rw [Nat.mod_eq_sub_mod (by omega : p ≤ m + p - k % p)]
      have he : m + p - k % p - p = m - k % p := by omega
      rw [he, Nat.mod_eq_of_lt (by omega)]
    rw [ht, Nat.add_mod k]
    rw [Nat.mod_eq_of_lt (show m - k % p < p by omega)]
    rw [Nat.mod_eq_of_lt (show k % p + (m - k % p) < p by omega)]
    omega
  · have ht : (m + p - k % p) % p = m + p - k % p := Nat.mod_eq_of_lt (by omega)
    rw [ht, Nat.add_mod k]
    rw [Nat.mod_eq_of_lt (show m + p - k % p < p by omega)]
    have h1 : k % p + (m + p - k % p) = m + p := by omega
    rw [h1, Nat.add_mod_right, Nat.mod_eq_of_lt hm]

theorem add_mod_ne (a d p : Nat) (hp0 : 0 < p) (hd0 : 0 < d) (hdp : d < p) :
    (a + d) % p ≠ a % p := by
  intro h
  rw [Nat.add_mod] at h
  have ha : a % p < p := Nat.mod_lt _ hp0
  have hd : d % p = d := Nat.mod_eq_of_lt hdp
  rw [hd] at h
  by_cases hlt : a % p + d < p
  · rw [Nat.mod_eq_of_lt hlt] at h
    omega
  · have h2 : a % p + d - p < p := by omega
    rw [Nat.mod_eq_sub_mod (by omega), Nat.mod_eq_of_lt h2] at h
    omega

theorem shift_mod_eq (k q p j : Nat) (hpq : p ≤ q) :
    (k + (q - p) + j) % p = (k + q + j) % p := by
  have h1 : k + (q - p) + j + p = k + q + j := by omega
  rw [← h1, Nat.add_mod_right]

/-- C4 amended: for a sample s that is cyclic with period p (position i
holds rotation slot (k+i) mod p of the rotation r), with the rotation's
minimum id occurring exactly once per rotation (at slot m) and at least
two full rotations sampled, the extraction succeeds and returns a list of
length exactly p whose content is one full rotation in arrival order
STARTING AT the earlier occurrence of the minimum id (its first element
is the minimum itself), not immediately after it. -/
theorem claim_C4_rotation_extraction (maxSecs : Nat) (r s : List Nat) (p m k : Nat)
    (hp : r.length = p) (hp0 : 0 < p) (hm : m < p)
    (hmin : ∀ a, a < p → a ≠ m → r.getD m 0 < r.getD a 0)
    (hL : 2 * p ≤ s.length)
    (hs : ∀ i, i < s.length → s.get? i = some (r.getD ((k + i) % p) 0))
    (hcap : ∀ x ∈ r, x ≤ maxSecs) :
    ∃ w, extract_rotation maxSecs s = some (some w) ∧ w.length = p ∧
      ∀ j, j < p → w.get? j = some (r.getD ((m + j) % p) 0) := by
  have hpL : p ≤ s.length := by omega
  have hchar : ∀ i, i < s.length → (s.get? i = some (r.getD m 0) ↔ (k + i) % p = m) := by
    intro i hi
    rw [hs i hi]
    constructor
    · intro h
      by_contra hne
      have ha : (k + i) % p < p := Nat.mod_lt _ hp0
      have := hmin ((k + i) % p) ha hne
      have hMv := Option.some.inj h
      omega
    · intro h
      rw [h]
  have hi0lt : (m + p - k % p) % p < s.length := by
    have := Nat.mod_lt (m + p - k % p) hp0
    omega
  have hi0 : s.get? ((m + p - k % p) % p) = some (r.getD m 0) := by
    rw [hchar _ hi0lt]
    exact mod_hit k m p hp0 hm
  have hMmem : r.getD m 0 ∈ s := List.get?_mem hi0
  have hmr : m < r.length := by omega
  have hMr : r.getD m 0 ∈ r := by
    rw [List.getD_eq_getElem r 0 hmr]
    exact List.getElem_mem hmr
  have hhit : ∃ x ∈ s, x ≤ maxSecs := ⟨r.getD m 0, hMmem, hcap _ hMr⟩
  obtain ⟨q, hq, h2, h3, h4⟩ := find_last_min_aux_hit s 0 maxSecs (-1) hhit
  have hle : (find_last_min_aux 0 maxSecs (-1) s).1 ≤ r.getD m 0 := by
    rw [find_last_min_aux_fst]
    exact foldl_min_le_mem s maxSecs _ hMmem
  have hge : r.getD m 0 ≤ (find_last_min_aux 0 maxSecs (-1) s).1 := by
    have hq3 := hs q hq
    rw [h3] at hq3
    have hv := Option.some.inj hq3
    by_cases ha : (k + q) % p = m
    · rw [ha] at hv
      omega
    · have hb : (k + q) % p < p := Nat.mod_lt _ hp0
      have := hmin ((k + q) % p) hb ha
      omega
  have hfm1 : (find_last_min_aux 0 maxSecs (-1) s).1 = r.getD m 0 := by omega
  rw [hfm1] at h3
  -- the sample's final window [s.length - p, s.length) contains an
  -- occurrence of the minimum, and q is the last occurrence, so p <= q
  have hδlt : (m + p - (k + (s.length - p)) % p) % p < p := Nat.mod_lt _ hp0
  have hi1 : s.get? (s.length - p + (m + p - (k + (s.length - p)) % p) % p)
      = some (r.getD m 0) := by
    rw [hchar _ (by omega)]
    have he : k + (s.length - p + (m + p - (k + (s.length - p)) % p) % p)
        = k + (s.length - p) + (m + p - (k + (s.length - p)) % p) % p := by omega
    rw [he]
    exact mod_hit (k + (s.length - p)) m p hp0 hm
  have hqp : p ≤ q := by
    by_contra hcon
    have hlt : q < s.length - p + (m + p - (k + (s.length - p)) % p) % p := by omega
    have := h4 _ _ hlt hi1
    omega
  have hkq : (k + q) % p = m := by
    rw [← hchar q hq]
    exact h3
  have hq_p : s.get? (q - p) = some (r.getD m 0) := by
    rw [hchar _ (by omega)]
    have h6 : (k + (q - p)) % p = (k + q) % p := by
      have h7 := shift_mod_eq k q p 0 hqp
      simpa using h7
    rw [h6]
    exact hkq
  have hnomid : ∀ q2 v, q - p < q2 → q2 ≤ q - 1 → s.get? q2 = some v →
      v ≠ r.getD m 0 := by
    intro q2 v hq1 hq2 hv hcon
    subst hcon
    have hq2lt : q2 < s.length := (List.get?_eq_some.mp hv).1
    have hq2m : (k + q2) % p = m := (hchar q2 hq2lt).mp hv
    have hd : k + q2 = k + (q - p) + (q2 - (q - p)) := by omega
    rw [hd, shift_mod_eq k q p (q2 - (q - p)) hqp] at hq2m
    have := add_mod_ne (k + q) (q2 - (q - p)) p hp0 (by omega) (by omega)
    rw [hq2m, hkq] at this
    exact this rfl
  have hsb : scan_back s (r.getD m 0) (((0 + q : Nat) : Int) - 1) = some (some (q - p)) := by
    unfold scan_back
    rw [if_neg (by push_cast; omega : ¬((0 + q : Nat) : Int) - 1 < 0)]
    have ht : (((0 + q : Nat) : Int) - 1).toNat = q - 1 := by push_cast; omega
    rw [ht]
    exact scan_back_nat_found s (r.getD m 0) (q - 1) (by omega) (q - p) (by omega)
      hq_p hnomid
  refine ⟨(s.drop (q - p)).take p, ?_, ?_, ?_⟩
  · simp only [extract_rotation, find_last_min]
    rw [hfm1, h2, hsb]
    have hq2 : (((0 + q : Nat) : Int)).toNat - (q - p) = p := by
      push_cast
      omega
    show some (some (List.take ((((0 + q : Nat) : Int)).toNat - (q - p)) (List.drop (q - p) s)))
      = some (some (List.take p (List.drop (q - p) s)))
    rw [hq2]
  · rw [List.length_take, List.length_drop]
    omega
  · intro j hj
    rw [List.get?_take hj, List.get?_drop]
    rw [hs (q - p + j) (by omega)]
    have he : (k + (q - p + j)) % p = (m + j) % p := by
      have h1 : k + (q - p + j) = k + (q - p) + j := by omega
      rw [h1, shift_mod_eq k q p j hqp]
      rw [Nat.add_mod (k + q) j p, hkq]
      conv_rhs => rw [Nat.add_mod m j p]
      rw [Nat.mod_eq_of_lt hm]
    rw [he]

/-- C4 counterexample: on the cyclic sample 1,2,3,1,2,3,1 (period 3,
minimum at rotation slot 0), the extracted rotation is [1,2,3] — the
half-open range STARTING AT the earlier occurrence of the minimum (sample
position 3) — whereas the rotation starting immediately after that
occurrence is [2,3,1]; and on the cyclic sample 1,5,1,7,... (period 4
with the minimum occurring twice per rotation) the extracted list has
length 2, not the true period 4. -/
theorem claim_C4_counterexample :
    extract_rotation 64 [1, 2, 3, 1, 2, 3, 1] = some (some [1, 2, 3]) ∧
    ([1, 2, 3] : List Nat) ≠ [2, 3, 1] ∧
    ((([1, 2, 3, 1, 2, 3, 1] : List Nat).drop (3 + 1)).take 3 = [2, 3, 1]) ∧
    extract_rotation 64 [1, 5, 1, 7, 1, 5, 1, 7] = some (some [1, 5]) ∧
    ([1, 5] : List Nat).length ≠ 4 := by
  exact ⟨by decide, by decide, by decide, by decide, by decide⟩

/-- Witness for the amended C4 theorem on the period-3 rotation [1,2,3]
sampled for seven positions. -/
theorem claim_C4_witness :
    (([1, 2, 3] : List Nat).length = 3 ∧ (0 : Nat) < 3 ∧ (0 : Nat) < 3 ∧
      (∀ a, a < 3 → a ≠ 0 → ([1, 2, 3] : List Nat).getD 0 0 < ([1, 2, 3] : List Nat).getD a 0) ∧
      2 * 3 ≤ ([1, 2, 3, 1, 2, 3, 1] : List Nat).length ∧
      (∀ i, i < ([1, 2, 3, 1, 2, 3, 1] : List Nat).length →
        ([1, 2, 3, 1, 2, 3, 1] : List Nat).get? i = some (([1, 2, 3] : List Nat).getD ((0 + i) % 3) 0)) ∧
      (∀ x ∈ ([1, 2, 3] : List Nat), x ≤ 64)) ∧
    ∃ w, extract_rotation 64 [1, 2, 3, 1, 2, 3, 1] = some (some w) ∧ w.length = 3 ∧
      ∀ j, j < 3 → w.get? j = some (([1, 2, 3] : List Nat).getD ((0 + j) % 3) 0) :=
  ⟨⟨by decide, by decide, by decide, by decide, by decide, by decide, by decide⟩,
    claim_C4_rotation_extraction 64 [1, 2, 3] [1, 2, 3, 1, 2, 3, 1] 3 0 0
      (by decide) (by decide) (by decide) (by decide) (by decide) (by decide) (by decide)⟩

theorem fixed_block_length (size : Nat) (l : List Nat) :
    (fixed_block size l).length = size := by
  simp only [fixed_block, List.length_append, List.length_take, List.length_replicate]
  omega

theorem flatten_slice (size : Nat) : ∀ (bs : List (List Nat)) (j : Nat),
    (∀ b ∈ bs, b.length = size) → j < bs.length →
    ((bs.flatten).drop (size * j)).take size = bs.getD j [] := by
  intro bs
  induction bs with
  | nil =>
    intro j _ hj
    simp at hj
  | cons b bs2 ih =>
    intro j hlen hj
    have hb : b.length = size := hlen b (List.mem_cons_self b bs2)
    cases j with
    | zero =>
      rw [List.getD_cons_zero, List.flatten_cons, Nat.mul_zero, List.drop_zero, ← hb,
        List.take_left]
    | succ j2 =>
      have hrest : ∀ b2 ∈ bs2, b2.length = size :=
        fun b2 h2 => hlen b2 (List.mem_cons_of_mem b h2)
      have hj2 : j2 < bs2.length := by
        simp only [List.length_cons] at hj
        omega
      have hmul : size * (j2 + 1) = b.length + size * j2 := by
        rw [hb]
        ring
      rw [List.getD_cons_succ, List.flatten_cons, hmul, ← List.drop_drop, List.drop_left]
      exact ih j2 hrest hj2

theorem whole_track_buf_slice (medium : Nat → List Nat) (size lo n j : Nat) (hj : j < n) :
    ((whole_track_buf medium size lo n).drop (size * j)).take size
      = fixed_block size (medium (lo + j)) := by
  have hlen : ∀ b ∈ (List.range n).map (fun j2 => fixed_block size (medium (lo + j2))),
      b.length = size := by
    intro b hb
    rcases List.mem_map.mp hb with ⟨x, _, rfl⟩
    exact fixed_block_length size _
  have hjlen : j < ((List.range n).map (fun j2 => fixed_block size (medium (lo + j2)))).length := by
    simpa using hj
  have h1 : ((List.range n).map (fun j2 => fixed_block size (medium (lo + j2)))).get? j
      = some (fixed_block size (medium (lo + j))) := by
    rw [List.get?_map, List.get?_range hj]
    rfl
  simp only [whole_track_buf]
  rw [flatten_slice size _ j hlen hjlen]
  rw [List.getD_eq_getElem _ [] hjlen]
  rw [List.get?_eq_get hjlen] at h1
  exact Option.some.inj h1

theorem scan_run_lowest_ptr (full : List Nat) : ∀ (xs : List Nat) (i : Nat) (st : ScanSt),
    full.drop i = xs →
    (∀ li, st.lowest = some li → full.get? li = some st.lowest_id) →
    ∀ li, (scan_run xs i st).lowest = some li →
      full.get? li = some (scan_run xs i st).lowest_id := by
  intro xs
  induction xs with
  | nil =>
    intro i st _ hinv li hli
    exact hinv li hli
  | cons x xs2 ih =>
    intro i st hdrop hinv li hli
    have hx : full.get? i = some x := by
      have h1 := List.get?_drop full i 0
      rw [hdrop] at h1
      simpa using h1.symm
    have hdrop2 : full.drop (i + 1) = xs2 := by
      have h2 := List.drop_drop 1 i full
      rw [hdrop] at h2
      simpa [Nat.add_comm] using h2.symm
    have hinv2 : ∀ li2, (scan_step i x st).lowest = some li2 →
        full.get? li2 = some (scan_step i x st).lowest_id := by
      intro li2 hli2
      obtain ⟨lo, loid, hi3, hiid⟩ := st
      simp only [scan_step] at hli2 ⊢
      by_cases h1 : x < loid
      · rw [if_pos h1] at hli2 ⊢
        dsimp only at hli2 ⊢
        by_cases h2 : x > hiid
        · rw [if_pos h2] at hli2 ⊢
          dsimp only at hli2 ⊢
          have h3 : i = li2 := Option.some.inj hli2
          subst h3
          exact hx
        · rw [if_neg h2] at hli2 ⊢
          dsimp only at hli2 ⊢
          have h3 : i = li2 := Option.some.inj hli2
          subst h3
          exact hx
      · rw [if_neg h1] at hli2 ⊢
        dsimp only at hli2 ⊢
        by_cases h2 : x > hiid
        · rw [if_pos h2] at hli2 ⊢
          dsimp only at hli2 ⊢
          exact hinv li2 hli2
        · rw [if_neg h2] at hli2 ⊢
          exact hinv li2 hli2
    simp only [scan_run] at hli ⊢
    exact ih (i + 1) (scan_step i x st) hdrop2 hinv2 li hli

/-- C8: under one probe result (a probed track whose scan reports a
contiguous id range with live lowest/highest pointers), with identical
medium contents, the whole-track fast path and the per-sector fallback
produce identical final tracks — every sector's payload bytes agree —
and the whole-track attempt succeeds. -/
theorem claim_C8_whole_vs_sector (maxSecs : Nat) (t : Track)
    (rdA rdB : Nat → Option IdReply) (sA : Nat → Bool) (M : Nat → List Nat)
    (st : ScanSt) (li hi2 : Nat)
    (hp : t.probed = true)
    (hn : t.num_sectors.toNat ≤ t.sectors.length)
    (hscan : track_scan_sectors maxSecs t = some (st, true))
    (hlo : st.lowest = some li) (hhi : st.highest = some hi2) :
    read_track maxSecs ⟨rdA, true, sA, M⟩ t
      = read_track maxSecs ⟨rdB, false, fun j => true, M⟩ t ∧
    (read_track maxSecs ⟨rdA, true, sA, M⟩ t).1 = Outcome.ok := by
  have hscan2 := hscan
  simp only [track_scan_sectors] at hscan2
  set ids := (t.sectors.take t.num_sectors.toNat).map (fun s => s.log_sector) with hids
  split at hscan2
  · exact absurd hscan2 (by simp)
  rename_i hgate
  have hpair := Option.some.inj hscan2
  have hst : scan_run ids 0 ⟨none, maxSecs, none, 0⟩ = st := congrArg Prod.fst hpair
  have hcont0 := congrArg Prod.snd hpair
  rw [hst] at hcont0
  have hmin_le : ∀ x ∈ ids, st.lowest_id ≤ x := by
    intro x hx
    rw [← hst, scan_run_lowest_id]
    exact foldl_min_le_mem ids maxSecs x hx
  have hmax_ge : ∀ x ∈ ids, x ≤ st.highest_id := by
    intro x hx
    rw [← hst, scan_run_highest_id]
    exact foldl_max_ge_mem ids 0 x hx
  have hgetlo : ids.get? li = some st.lowest_id := by
    rw [← hst]
    refine scan_run_lowest_ptr ids ids 0 ⟨none, maxSecs, none, 0⟩ rfl ?_ li ?_
    · intro li2 h2
      exact Option.noConfusion h2
    · rw [hst]
      exact hlo
  have hlilen : li < ids.length := (List.get?_eq_some.mp hgetlo).1
  have hlomem : st.lowest_id ∈ ids := List.get?_mem hgetlo
  have hlohi : st.lowest_id ≤ st.highest_id := hmax_ge _ hlomem
  have hnenil : ids ≠ [] := by
    intro hcon
    rw [hcon] at hlilen
    simp at hlilen
  have hhimem : st.highest_id ∈ ids := by
    rcases foldl_max_mem ids 0 with h | h
    · obtain ⟨x, hx⟩ := List.exists_mem_of_ne_nil ids hnenil
      have h1 := foldl_max_ge_mem ids 0 x hx
      have h2 : x = 0 := by omega
      rw [← hst, scan_run_highest_id, h]
      rw [h2] at hx
      exact hx
    · rw [← hst, scan_run_highest_id]
      exact h
  have hIcc : ∀ v, st.lowest_id ≤ v → v ≤ st.highest_id → v ∈ ids := by
    intro v h1 h2
    rcases Nat.eq_or_lt_of_le h2 with heq | h3
    · rw [heq]
      exact hhimem
    · have hv : v ∈ List.range' st.lowest_id (st.highest_id - st.lowest_id) :=
        List.mem_range'_1.mpr ⟨h1, by omega⟩
      have hall := List.all_eq_true.mp hcont0
      exact List.mem_of_elem_eq_true (hall v hv)
  have hidslen : ids.length = t.num_sectors.toNat := by
    rw [hids, List.length_map, List.length_take]
    omega
  have hcard : st.highest_id - st.lowest_id < t.num_sectors.toNat := by
    have hsub : Finset.Icc st.lowest_id st.highest_id ⊆ ids.toFinset := by
      intro v hv
      rcases Finset.mem_Icc.mp hv with ⟨h1, h2⟩
      rw [List.mem_toFinset]
      exact hIcc v h1 h2
    have h1 := Finset.card_le_card hsub
    rw [Nat.card_Icc] at h1
    have h2 := ids.toFinset_card_le
    omega
  have hbody_lo : (t.sectors.getD li EMPTY_SECTOR).log_sector = st.lowest_id := by
    have hlin : li < t.num_sectors.toNat := by omega
    have h1 : ids.get? li = ((t.sectors.take t.num_sectors.toNat).get? li).map
        (fun s => s.log_sector) := by
      rw [hids, List.get?_map]
    rw [hgetlo] at h1
    have h2 : (t.sectors.take t.num_sectors.toNat).get? li = t.sectors.get? li :=
      List.get?_take hlin
    rw [h2] at h1
    cases hg : t.sectors.get? li with
    | none =>
      rw [hg] at h1
      simp at h1
    | some s0 =>
      rw [hg] at h1
      have h3 : s0.log_sector = st.lowest_id := by
        simpa using h1.symm
      have hlis : li < t.sectors.length := (List.get?_eq_some.mp hg).1
      rw [List.getD_eq_getElem t.sectors EMPTY_SECTOR hlis]
      rw [List.get?_eq_get hlis] at hg
      rw [← h3]
      exact congrArg (fun s => s.log_sector) (Option.some.inj hg)
  have hslice : ∀ s ∈ t.sectors.take t.num_sectors.toNat,
      ((whole_track_buf M (sector_bytes t.sector_size_code.toNat) st.lowest_id
          t.num_sectors.toNat).drop
        (sector_bytes t.sector_size_code.toNat * (s.log_sector - st.lowest_id))).take
          (sector_bytes t.sector_size_code.toNat)
        = fixed_block (sector_bytes t.sector_size_code.toNat) (M s.log_sector) := by
    intro s hs
    have hmem : s.log_sector ∈ ids := by
      rw [hids]
      exact List.mem_map.mpr ⟨s, hs, rfl⟩
    have h1 := hmin_le _ hmem
    have h2 := hmax_ge _ hmem
    have hj : s.log_sector - st.lowest_id < t.num_sectors.toNat := by omega
    have h4 := whole_track_buf_slice M (sector_bytes t.sector_size_code.toNat)
      st.lowest_id t.num_sectors.toNat (s.log_sector - st.lowest_id) hj
    rw [show st.lowest_id + (s.log_sector - st.lowest_id) = s.log_sector from by omega] at h4
    exact h4
  have hone : ∀ s ∈ t.sectors.take t.num_sectors.toNat,
      acquire_one (sector_bytes t.sector_size_code.toNat) true st.lowest_id
          (whole_track_buf M (sector_bytes t.sector_size_code.toNat) st.lowest_id
            t.num_sectors.toNat) ⟨rdA, true, sA, M⟩ s
        = acquire_one (sector_bytes t.sector_size_code.toNat) false st.lowest_id
          (whole_track_buf M (sector_bytes t.sector_size_code.toNat) st.lowest_id
            t.num_sectors.toNat) ⟨rdB, false, fun j => true, M⟩ s := by
    intro s hs
    cases hd : s.data with
    | some v => simp [acquire_one, hd]
    | none => simp [acquire_one, hd, hslice s hs]
  have hsnd : ∀ s ∈ t.sectors.take t.num_sectors.toNat,
      (acquire_one (sector_bytes t.sector_size_code.toNat) true st.lowest_id
        (whole_track_buf M (sector_bytes t.sector_size_code.toNat) st.lowest_id
          t.num_sectors.toNat) ⟨rdA, true, sA, M⟩ s).2 = true := by
    intro s _
    cases hd : s.data with
    | some v => simp [acquire_one, hd]
    | none => simp [acquire_one, hd]
  have hrt : ∀ o : DevOracle, read_track maxSecs o t = read_track_body maxSecs o t := by
    intro o
    simp [read_track, hp]
  have hcond1 : ¬(True ∧ (some li : Option Nat) = none) := by simp
  constructor
  · rw [hrt ⟨rdA, true, sA, M⟩, hrt ⟨rdB, false, fun j => true, M⟩]
    simp only [read_track_body, hscan]
    rw [hlo, hhi]
    rw [if_neg hcond1, if_neg hcond1]
    simp only [Option.getD_some]
    rw [hbody_lo]
    rw [if_neg (by simp : ¬((True ∧ True) ∧ (some hi2 : Option Nat) = none))]
    rw [show decide (True ∧ True) = true from rfl]
    rw [List.map_congr_left hone]
    rw [if_neg (by simp : ¬((True ∧ (false : Bool) = true) ∧ (some hi2 : Option Nat) = none))]
    rw [show decide (True ∧ (false : Bool) = true) = false from rfl]
  · rw [hrt ⟨rdA, true, sA, M⟩]
    simp only [read_track_body, hscan]
    rw [hlo, hhi]
    rw [if_neg hcond1]
    simp only [Option.getD_some]
    rw [hbody_lo]
    rw [if_neg (by simp : ¬((True ∧ True) ∧ (some hi2 : Option Nat) = none))]
    rw [show decide (True ∧ True) = true from rfl]
    have hall2 : ((t.sectors.take t.num_sectors.toNat).map
        (acquire_one (sector_bytes t.sector_size_code.toNat) true st.lowest_id
          (whole_track_buf M (sector_bytes t.sector_size_code.toNat) st.lowest_id
            t.num_sectors.toNat) ⟨rdA, true, sA, M⟩)).all Prod.snd = true := by
      rw [List.all_eq_true]
      intro x hx
      rcases List.mem_map.mp hx with ⟨s, hs, rfl⟩
      exact hsnd s hs
    rw [if_pos hall2]

/-- Witness for C8 at the probed two-sector track: the whole-track path
(controller supports the track read) and the per-sector path (it does
not) yield identical results, and the read succeeds. -/
theorem claim_C8_witness :
    ((exTrack none none).probed = true ∧
      (exTrack none none).num_sectors.toNat ≤ (exTrack none none).sectors.length ∧
      track_scan_sectors 64 (exTrack none none) = some (⟨some 0, 1, some 1, 2⟩, true) ∧
      (⟨some 0, 1, some 1, 2⟩ : ScanSt).lowest = some 0 ∧
      (⟨some 0, 1, some 1, 2⟩ : ScanSt).highest = some 1) ∧
    (read_track 64 ⟨fun k => none, true, fun j => false, fun id => List.replicate 128 id⟩
        (exTrack none none)
      = read_track 64 ⟨fun k => none, false, fun j => true, fun id => List.replicate 128 id⟩
        (exTrack none none) ∧
      (read_track 64 ⟨fun k => none, true, fun j => false, fun id => List.replicate 128 id⟩
        (exTrack none none)).1 = Outcome.ok) :=
  ⟨⟨by decide, by decide, by decide, by decide, by decide⟩,
    claim_C8_whole_vs_sector 64 (exTrack none none) (fun k => none) (fun k => none)
      (fun j => false) (fun id => List.replicate 128 id) ⟨some 0, 1, some 1, 2⟩ 0 1
      (by decide) (by decide) (by decide) (by decide) (by decide)⟩

end Dumpfloppy